import Mathlib

/-!
A verification development for the DXIL-to-SPIR-V lowering core
(`src/dxil_converter.cpp`).  The converter's data model, value/type
interning, resource emission, stage-I/O emission, sampling lowering and
CFG discovery are embedded shallowly as executable Lean definitions, and
the specification's claims about them are settled as theorems.

Modelling conventions:
* SPIR-V ids (`spv::Id`) are modelled by the inductive `Id`.  The external
  builder facility interns types and constants structurally (the same
  descriptor always yields the same id, distinct descriptors distinct ids),
  so type- and constant-maker calls are modelled as pure descriptor
  constructors, while `allocate_id`, `createVariable`, `createUndefined`
  and `makeStructType` (which always produce a fresh result in the builder)
  draw from a monotonic counter (`Id.fresh`).  `Id.none` is the zero
  sentinel.
* Floating-point payloads are opaque bit tokens (`Nat`); the token `0`
  stands for the literal `0.0`.
* LLVM struct types are modelled by their element count together with the
  type of element 0 — the only two projections the converter performs on
  struct types (`getStructNumElements`, `getStructElementType(0)`).
* `unordered_map` members are association lists; `operator[]` reads on
  maps are lookups defaulting to the zero id.
-/

namespace DxilSpv

/-- SPIR-V storage classes used by the converter. -/
inductive SCls where
  | Function
  | Input
  | Output
  | Uniform
  | UniformConstant
  deriving DecidableEq, Repr

/-- SPIR-V image dimensionalities used by the converter (`spv::Dim`);
`Max` is the invalid sentinel `spv::DimMax`. -/
inductive Dim where
  | D1
  | D2
  | D3
  | Cube
  | Buffer
  | Max
  deriving DecidableEq, Repr

/-- A GIR identifier.  `none` is the reserved zero id.  Type and constant
descriptors are interned by the builder, hence modelled structurally;
`fresh n` is the `n`-th id drawn from the monotonic allocator. -/
inductive Id where
  | none
  | floatType (bits : Nat)
  | intType (bits : Nat) (signed : Bool)
  | boolType
  | vecType (comp : Id) (n : Nat)
  | matType (comp : Id) (rows cols : Nat)
  | ptrType (sc : SCls) (elem : Id)
  | arrType (elem : Id) (len : Id) (stride : Nat)
  | imgType (sampled : Id) (dim : Dim) (depth : Bool) (arrayed : Bool) (ms : Bool) (sampledFlag : Nat)
  | sampledImgType (img : Id)
  | samplerType
  | uintConst (v : Nat)
  | intConst (v : Int)
  | floatConst (bits : Nat)
  | doubleConst (bits : Nat)
  | boolConst (b : Bool)
  | fresh (n : Nat)
  deriving DecidableEq, Repr

/-- LLVM/HLIR types, as far as the converter inspects them. -/
inductive LLVMType where
  | half
  | float
  | double
  | integer (width : Nat)
  | pointer (elem : LLVMType)
  | array (elem : LLVMType) (n : Nat)
  | structT (numElems : Nat) (elem0 : LLVMType)
  | vector (elem : LLVMType) (n : Nat)
  deriving DecidableEq, Repr

/-- An HLIR SSA value.  LLVM interns undefs and constants per type /
payload, so structural equality of this type coincides with the pointer
identity the converter keys its maps on; non-constant values are
distinguished by an index. -/
inductive Value where
  | undef (ty : LLVMType)
  | constant (ty : LLVMType) (ival : Int) (fbits : Nat)
  | instr (idx : Nat) (ty : LLVMType)
  deriving DecidableEq, Repr

/-- `llvm::Value::getType()`. -/
def Value.ty : Value → LLVMType
  | .undef t => t
  | .constant t _ _ => t
  | .instr _ t => t

/-- `llvm::isa<llvm::UndefValue>`. -/
def Value.isUndef : Value → Bool
  | .undef _ => true
  | _ => false

/-- `getUniqueInteger().getSExtValue()` of a constant (junk elsewhere). -/
def Value.sextValue : Value → Int
  | .constant _ i _ => i
  | _ => 0

/-- Association-list lookup (first match), the map-read primitive. -/
def alookup {α β : Type} [DecidableEq α] (k : α) : List (α × β) → Option β
  | [] => Option.none
  | (a, b) :: t => if a = k then some b else alookup k t

/-- SPIR-V opcodes emitted by the modelled part of the converter. -/
inductive Opcode where
  | OpNop
  | OpLoad
  | OpStore
  | OpBitcast
  | OpSConvert
  | OpUConvert
  | OpFConvert
  | OpConvertFToU
  | OpConvertFToS
  | OpConvertSToF
  | OpConvertUToF
  | OpInBoundsAccessChain
  | OpAccessChain
  | OpCompositeExtract
  | OpCompositeConstruct
  | OpSampledImage
  | OpImageSampleImplicitLod
  | OpImageSampleExplicitLod
  | OpImageSampleDrefImplicitLod
  | OpImageSampleDrefExplicitLod
  | OpSelect
  deriving DecidableEq, Repr

/-- One argument slot of an operation: an id or a raw literal (image
operand masks, composite-extract indices). -/
inductive Arg where
  | id (i : Id)
  | lit (n : Nat)
  deriving DecidableEq, Repr

/-- A GIR operation record. -/
structure Operation where
  op : Opcode
  id : Id
  type_id : Id
  arguments : List Arg
  deriving DecidableEq, Repr

/-- Decorations used by the converter. -/
inductive Deco where
  | ArrayStride
  | Offset
  | Block
  | DescriptorSet
  | Binding
  | Location
  | BuiltIn
  deriving DecidableEq, Repr

/-- An `addDecoration` record: target id, decoration, optional literal. -/
structure Decoration where
  target : Id
  deco : Deco
  operand : Option Nat
  deriving DecidableEq, Repr

/-- An `addMemberDecoration` record. -/
structure MemberDecoration where
  target : Id
  member : Nat
  deco : Deco
  operand : Nat
  deriving DecidableEq, Repr

/-- Capabilities added by the converter. -/
inductive Cap where
  | MinLod
  deriving DecidableEq, Repr

/-- DXIL op-table sub-opcodes dispatched by the converter
(`DXIL::Op`). -/
inductive DXILOp where
  | LoadInput
  | StoreOutput
  | CreateHandle
  | CBufferLoadLegacy
  | Sample
  | SampleBias
  | SampleLevel
  | SampleCmp
  | SampleCmpLevelZero
  deriving DecidableEq, Repr

/-- DXIL stage-I/O semantics inspected by the converter
(`DXIL::Semantic`). -/
inductive Semantic where
  | User
  | Position
  | Target
  | Other
  deriving DecidableEq, Repr

/-- DXIL component types (`DXIL::ComponentType`). -/
inductive ComponentType where
  | I1
  | I16
  | U16
  | I32
  | U32
  | I64
  | U64
  | F16
  | F32
  | F64
  | Unknown
  deriving DecidableEq, Repr

/-- The mutable converter/builder state threaded through lowering: the
fresh-id counter, the value cache, handle bindings, the image-type side
table, decorations, capabilities, created variables and struct types,
resource index tables, and stage-I/O element tables. -/
structure ConvState where
  nextFresh : Nat
  valueMap : List (Value × Id)
  handleToPtrId : List (Value × Id)
  idToType : List (Id × Id)
  decorations : List Decoration
  memberDecorations : List MemberDecoration
  capabilities : List Cap
  vars : List (Id × SCls × Id × String)
  structTypes : List (Id × List Id × String)
  cbvIndexToId : List Id
  outputElementsIds : List (Nat × Id)
  inputElementsIds : List (Nat × Id)
  entryInterface : List Id
  deriving DecidableEq, Repr

/-- The all-empty starting state. -/
def ConvState.init : ConvState :=
  ⟨0, [], [], [], [], [], [], [], [], [], [], [], []⟩

/-- `SPIRVModule::allocate_id` — the monotonic allocator. -/
def allocId (st : ConvState) : Id × ConvState :=
  (Id.fresh st.nextFresh, { st with nextFresh := st.nextFresh + 1 })

/-- `Builder::addDecoration`. -/
def addDecoration (st : ConvState) (target : Id) (deco : Deco) (operand : Option Nat) : ConvState :=
  { st with decorations := st.decorations ++ [⟨target, deco, operand⟩] }

/-- `Builder::addMemberDecoration`. -/
def addMemberDecoration (st : ConvState) (target : Id) (member : Nat) (deco : Deco) (operand : Nat) : ConvState :=
  { st with memberDecorations := st.memberDecorations ++ [⟨target, member, deco, operand⟩] }

/-- `Builder::addCapability`. -/
def addCapability (st : ConvState) (c : Cap) : ConvState :=
  { st with capabilities := st.capabilities ++ [c] }

/-- `Builder::createVariable` — allocates a fresh id and records the
variable's storage class, type and name. -/
def createVariable (st : ConvState) (sc : SCls) (type_id : Id) (name : String) : Id × ConvState :=
  let (i, st) := allocId st
  (i, { st with vars := st.vars ++ [(i, sc, type_id, name)] })

/-- `Builder::makeStructType` — struct types are never interned by the
builder, so each call produces a fresh id; members and name are
recorded. -/
def makeStructType (st : ConvState) (members : List Id) (name : String) : Id × ConvState :=
  let (i, st) := allocId st
  (i, { st with structTypes := st.structTypes ++ [(i, members, name)] })

/-- `Builder::createUndefined` — a fresh undef-typed id. -/
def createUndefined (st : ConvState) (_type_id : Id) : Id × ConvState :=
  allocId st

/-- `Converter::Impl::get_type_id(const llvm::Type &)`
(`src/dxil_converter.cpp:423-451`): half/float/double become scalar
floats, 1-bit integers booleans, wider integers unsigned integers,
pointers function-storage pointers, arrays constant-length arrays;
all other kinds fail with the zero id. -/
def get_type_id_ty : LLVMType → Id
  | .half => .floatType 16
  | .float => .floatType 32
  | .double => .floatType 64
  | .integer w => if w = 1 then .boolType else .intType w false
  | .pointer e => .ptrType .Function (get_type_id_ty e)
  | .array e n => .arrType (get_type_id_ty e) (.uintConst n) 0
  | .structT _ _ => .none
  | .vector _ _ => .none

/-- Zero-extension of a width-`w` two's-complement value, as
`APInt::getZExtValue` performs on a width-`w` constant. -/
def zextW (w : Nat) (i : Int) : Nat := (i % (2 ^ w : Nat)).toNat

/-- `Converter::Impl::get_id_for_constant`
(`src/dxil_converter.cpp:335-369`): dispatch on the constant's type id —
32-bit float and 64-bit float constants are materialised directly;
integer constants are materialised as 32-bit unsigned constants when the
effective width (the type's width unless overridden by a non-zero
`forced_width`) is 32 and otherwise yield the zero sentinel, as does
every other type kind. -/
def get_id_for_constant (ty : LLVMType) (ival : Int) (fbits : Nat) (forced_width : Nat) : Id :=
  match ty with
  | .float => .floatConst fbits
  | .double => .doubleConst fbits
  | .integer w =>
    let integer_width := if forced_width ≠ 0 then forced_width else w
    if integer_width = 32 then .uintConst (zextW w ival) else .none
  | _ => .none

/-- `Converter::Impl::get_id_for_undef`
(`src/dxil_converter.cpp:371-375`). -/
def get_id_for_undef (st : ConvState) (ty : LLVMType) : Id × ConvState :=
  createUndefined st (get_type_id_ty ty)

/-- `Converter::Impl::get_id_for_value`
(`src/dxil_converter.cpp:377-393`): return the cached id when present;
otherwise dispatch (undef, then constant, then fresh allocation) and
cache the result unconditionally before returning. -/
def get_id_for_value (st : ConvState) (value : Value) (forced_width : Nat) : Id × ConvState :=
  match alookup value st.valueMap with
  | some i => (i, st)
  | Option.none =>
    let r : Id × ConvState :=
      match value with
      | .undef ty => get_id_for_undef st ty
      | .constant ty ival fbits => (get_id_for_constant ty ival fbits forced_width, st)
      | .instr _ _ => allocId st
    (r.1, { r.2 with valueMap := (value, r.1) :: r.2.valueMap })

/-! ## Native-instruction emitters: casts -/

/-- LLVM cast opcodes; `OtherCast` stands for the cast opcodes the
converter does not recognise (its `default:` diagnostic path). -/
inductive CastOps where
  | BitCast
  | SExt
  | Trunc
  | ZExt
  | FPTrunc
  | FPExt
  | FPToUI
  | FPToSI
  | SIToFP
  | UIToFP
  | OtherCast
  deriving DecidableEq, Repr

/-- A cast instruction: its SSA index, cast opcode, source operand and
result type. -/
structure CastInst where
  idx : Nat
  castop : CastOps
  operand : Value
  retType : LLVMType
  deriving DecidableEq, Repr

/-- The cast instruction viewed as an HLIR value. -/
def CastInst.selfValue (inst : CastInst) : Value := .instr inst.idx inst.retType

/-- `Converter::Impl::emit_cast_instruction`
(`src/dxil_converter.cpp:1321-1371`): allocate/fetch the result id, take
the result type from `get_type_id`, translate the cast opcode, and append
the operation; an unknown cast opcode logs and returns without appending
(the value-map mutations having already happened). -/
def emit_cast_instruction (block : List Operation) (st : ConvState) (inst : CastInst) :
    List Operation × ConvState :=
  let r1 := get_id_for_value st inst.selfValue 0
  let op_id := r1.1
  let st := r1.2
  let type_id := get_type_id_ty inst.retType
  let r2 := get_id_for_value st inst.operand 0
  let arg_id := r2.1
  let st := r2.2
  let spv_op : Option Opcode :=
    match inst.castop with
    | .BitCast => some .OpBitcast
    | .SExt => some .OpSConvert
    | .Trunc | .ZExt => some .OpUConvert
    | .FPTrunc | .FPExt => some .OpFConvert
    | .FPToUI => some .OpConvertFToU
    | .FPToSI => some .OpConvertFToS
    | .SIToFP => some .OpConvertSToF
    | .UIToFP => some .OpConvertUToF
    | .OtherCast => Option.none
  match spv_op with
  | Option.none => (block, st)
  | some o => (block ++ [⟨o, op_id, type_id, [Arg.id arg_id]⟩], st)

/-! ## ResourceBinder: constant buffers -/

/-- The metadata fields `emit_cbvs` reads from one CBV entry (operands
0, 2, 3, 4 and 6 of the metadata node). -/
structure CBVMeta where
  index : Nat
  name : String
  bindSpace : Nat
  bindRegister : Nat
  size : Nat
  deriving DecidableEq, Repr

/-- `std::vector<spv::Id>::resize(n)` growth: keep the contents, pad
with zero ids. -/
def listResize (l : List Id) (n : Nat) : List Id :=
  l ++ List.replicate (n - l.length) Id.none

/-- One iteration of `Converter::Impl::emit_cbvs`
(`src/dxil_converter.cpp:253-288`): build a `vec4<f32>[ceil(size/16)]`
array type with stride 16, decorate it `ArrayStride 16`, wrap it as the
sole member of a `Block`-decorated struct with member 0 at offset 0,
create a `Uniform` variable of the struct type, decorate its set and
binding, and store the variable id at the entry's index in
`cbv_index_to_id` (grown on demand). -/
def emit_cbv (st : ConvState) (cbv : CBVMeta) : ConvState :=
  let vec4_length := (cbv.size + 15) / 16
  let member_array_type := Id.arrType (Id.vecType (Id.floatType 32) 4) (Id.uintConst vec4_length) 16
  let st := addDecoration st member_array_type Deco.ArrayStride (some 16)
  let rt := makeStructType st [member_array_type] cbv.name
  let type_id := rt.1
  let st := rt.2
  let st := addMemberDecoration st type_id 0 Deco.Offset 0
  let st := addDecoration st type_id Deco.Block Option.none
  let rv := createVariable st SCls.Uniform type_id cbv.name
  let var_id := rv.1
  let st := rv.2
  let st := addDecoration st var_id Deco.DescriptorSet (some cbv.bindSpace)
  let st := addDecoration st var_id Deco.Binding (some cbv.bindRegister)
  { st with cbvIndexToId :=
      (listResize st.cbvIndexToId (max st.cbvIndexToId.length (cbv.index + 1))).set cbv.index var_id }

/-- `Converter::Impl::emit_cbvs` over the whole CBV metadata list. -/
def emit_cbvs (st : ConvState) (cbvs : List CBVMeta) : ConvState :=
  cbvs.foldl emit_cbv st

/-! ## Stage I/O variables -/

/-- The metadata fields the stage-I/O emitters read from one signature
element (operands 0, 1, 2, 3, 6, 7 and 8 of the element node). -/
structure SigElement where
  elementId : Nat
  semanticName : String
  elementType : ComponentType
  systemValue : Semantic
  rows : Nat
  cols : Nat
  semanticIndex : Nat
  deriving DecidableEq, Repr

/-- `spv::BuiltInPosition`. -/
def BuiltInPosition : Nat := 0

/-- The scalar component of `get_type_id(element_type, rows, cols)`
(`src/dxil_converter.cpp:457-503`). -/
def componentTypeId : ComponentType → Id
  | .I1 => .boolType
  | .I16 => .intType 16 true
  | .U16 => .intType 16 false
  | .I32 => .intType 32 true
  | .U32 => .intType 32 false
  | .I64 => .intType 64 true
  | .U64 => .intType 64 false
  | .F16 => .floatType 16
  | .F32 => .floatType 32
  | .F64 => .floatType 64
  | .Unknown => .none

/-- `Converter::Impl::get_type_id(unsigned, unsigned, unsigned)`
(`src/dxil_converter.cpp:453-517`): decode the component type (unknown
components fail with the zero id), then scalar when `rows = cols = 1`,
vector of `cols` when `rows = 1`, matrix otherwise. -/
def get_type_id_synth (element_type : ComponentType) (rows cols : Nat) : Id :=
  match componentTypeId element_type with
  | Id.none => Id.none
  | component_type =>
    if rows = 1 ∧ cols = 1 then component_type
    else if rows = 1 then .vecType component_type cols
    else .matType component_type rows cols

/-- `Converter::Impl::emit_builtin_decoration`
(`src/dxil_converter.cpp:593-605`): only `Position` is known; everything
else is silently skipped. -/
def emit_builtin_decoration (st : ConvState) (i : Id) (semantic : Semantic) : ConvState :=
  match semantic with
  | .Position => addDecoration st i Deco.BuiltIn (some BuiltInPosition)
  | _ => st

/-- One iteration of `Converter::Impl::emit_stage_output_variables`
(`src/dxil_converter.cpp:541-590`), threading the free-`Location`
counter: `Target` gets `Location = semantic_index`; other non-`User`
semantics get a builtin decoration; `User` gets the counter's value and
advances it by `rows`.  The variable id is appended to the entry point's
interface list. -/
def emit_stage_output_element (acc : ConvState × Nat) (output : SigElement) : ConvState × Nat :=
  let st := acc.1
  let location := acc.2
  let type_id := get_type_id_synth output.elementType output.rows output.cols
  let rv := createVariable st SCls.Output type_id output.semanticName
  let variable_id := rv.1
  let st := rv.2
  let st := { st with outputElementsIds := (output.elementId, variable_id) :: st.outputElementsIds }
  let r :=
    if output.systemValue = Semantic.Target then
      (addDecoration st variable_id Deco.Location (some output.semanticIndex), location)
    else if output.systemValue ≠ Semantic.User then
      (emit_builtin_decoration st variable_id output.systemValue, location)
    else
      (addDecoration st variable_id Deco.Location (some location), location + output.rows)
  ({ r.1 with entryInterface := r.1.entryInterface ++ [variable_id] }, r.2)

/-- `Converter::Impl::emit_stage_output_variables`: fold over the output
signature with the location counter starting at 0. -/
def emit_stage_output_variables (st : ConvState) (outputs : List SigElement) : ConvState :=
  (outputs.foldl emit_stage_output_element (st, 0)).1

/-- One iteration of `Converter::Impl::emit_stage_input_variables`
(`src/dxil_converter.cpp:607-663`): like the output path but in `Input`
storage and with no `Target` special case. -/
def emit_stage_input_element (acc : ConvState × Nat) (input : SigElement) : ConvState × Nat :=
  let st := acc.1
  let location := acc.2
  let type_id := get_type_id_synth input.elementType input.rows input.cols
  let rv := createVariable st SCls.Input type_id input.semanticName
  let variable_id := rv.1
  let st := rv.2
  let st := { st with inputElementsIds := (input.elementId, variable_id) :: st.inputElementsIds }
  let r :=
    if input.systemValue ≠ Semantic.User then
      (emit_builtin_decoration st variable_id input.systemValue, location)
    else
      (addDecoration st variable_id Deco.Location (some location), location + input.rows)
  ({ r.1 with entryInterface := r.1.entryInterface ++ [variable_id] }, r.2)

/-- `Converter::Impl::emit_stage_input_variables`: fold over the input
signature with the location counter starting at 0. -/
def emit_stage_input_variables (st : ConvState) (inputs : List SigElement) : ConvState :=
  (inputs.foldl emit_stage_input_element (st, 0)).1

/-! ## Sampling -/

/-- SPIR-V image-operand bits used by the converter. -/
def ImageOperandsBiasMask : Nat := 1

/-- `spv::ImageOperandsLodMask`. -/
def ImageOperandsLodMask : Nat := 2

/-- `spv::ImageOperandsConstOffsetMask`. -/
def ImageOperandsConstOffsetMask : Nat := 8

/-- `spv::ImageOperandsMinLodMask`. -/
def ImageOperandsMinLodMask : Nat := 128

/-- `Builder::getTypeDimensionality` on an image type id. -/
def getTypeDimensionality : Id → Dim
  | .imgType _ d _ _ _ _ => d
  | _ => .Max

/-- `Builder::isArrayedImageType`. -/
def isArrayedImageType : Id → Bool
  | .imgType _ _ _ a _ _ => a
  | _ => false

/-- `Builder::isMultisampledImageType`. -/
def isMultisampledImageType : Id → Bool
  | .imgType _ _ _ _ m _ => m
  | _ => false

/-- `Builder::getImageComponentType`. -/
def getImageComponentType : Id → Id
  | .imgType s _ _ _ _ _ => s
  | _ => .none

/-- `Converter::Impl::get_type_id(spv::Id)`
(`src/dxil_converter.cpp:519-526`): the `id_to_type` side table populated
at handle-load sites, defaulting to the zero id. -/
def get_type_id_of_id (st : ConvState) (i : Id) : Id :=
  match alookup i st.idToType with
  | Option.none => .none
  | some t => t

/-- A call instruction: its SSA index, operand list and result type.
`getOperand` defaults out-of-range accesses to an undef. -/
structure CallInst where
  idx : Nat
  operands : List Value
  retType : LLVMType
  deriving DecidableEq, Repr

/-- `getOperand(i)`. -/
def CallInst.getOperand (inst : CallInst) (i : Nat) : Value :=
  inst.operands.getD i (.undef .float)

/-- The call instruction viewed as an HLIR value. -/
def CallInst.selfValue (inst : CallInst) : Value := .instr inst.idx inst.retType

/-- `getStructElementType(0)` (junk on non-structs; the source asserts
struct-ness at every use). -/
def LLVMType.structElem0 : LLVMType → LLVMType
  | .structT _ e => e
  | _ => .float

/-- `getStructNumElements()` (junk on non-structs). -/
def LLVMType.structNumElems : LLVMType → Nat
  | .structT n _ => n
  | _ => 0

/-- Truncation of a 64-bit signed value to a 32-bit signed value, as the
`int(...)` cast at `src/dxil_converter.cpp:942` performs. -/
def toInt32 (i : Int) : Int := (i + 2 ^ 31) % (2 ^ 32 : Nat) - 2 ^ 31

/-- `Converter::Impl::build_sampled_image`
(`src/dxil_converter.cpp:844-865`): re-derive the image type with
`Depth = comparison` and `Sampled = 2`, allocate an id and append an
`OpSampledImage` operation. -/
def build_sampled_image (st : ConvState) (block : List Operation) (image_id sampler_id : Id)
    (comparison : Bool) : Id × List Operation × ConvState :=
  let image_type_id := get_type_id_of_id st image_id
  let dim := getTypeDimensionality image_type_id
  let arrayed := isArrayedImageType image_type_id
  let multisampled := isMultisampledImageType image_type_id
  let sampled_format := getImageComponentType image_type_id
  let image_type_id2 := Id.imgType sampled_format dim comparison arrayed multisampled 2
  let ra := allocId st
  (ra.1,
   block ++ [⟨.OpSampledImage, ra.1, .sampledImgType image_type_id2, [.id image_id, .id sampler_id]⟩],
   ra.2)

/-- `Converter::Impl::build_vector` (`src/dxil_converter.cpp:867-883`):
a single element passes through; otherwise allocate an id and append an
`OpCompositeConstruct` of the corresponding vector type. -/
def build_vector (st : ConvState) (block : List Operation) (element_type : Id)
    (elements : List Id) : Id × List Operation × ConvState :=
  if elements.length = 1 then (elements.headD .none, block, st)
  else
    let ra := allocId st
    (ra.1,
     block ++ [⟨.OpCompositeConstruct, ra.1, .vecType element_type elements.length,
                elements.map Arg.id⟩],
     ra.2)

/-- The coordinate switch at `src/dxil_converter.cpp:899-919`: 1D and
buffers have one coordinate, 2D two, 3D and cubes three; anything else is
the diagnostic early-return path. -/
def numCoordsForDim : Dim → Option Nat
  | .D1 => some 1
  | .Buffer => some 1
  | .D2 => some 2
  | .D3 => some 3
  | .Cube => some 3
  | .Max => Option.none

/-- The coordinate-gathering loop at `src/dxil_converter.cpp:923-925`:
value ids for operands `3 .. 3+n-1`. -/
def gatherCoords (st : ConvState) (inst : CallInst) (n : Nat) : List Id × ConvState :=
  (List.range n).foldl
    (fun acc i =>
      let r := get_id_for_value acc.2 (inst.getOperand (i + 3)) 0
      (acc.1 ++ [r.1], r.2))
    ([], st)

/-- The offset-gathering loop at `src/dxil_converter.cpp:934-946`: for
each of the `num_coords` operands starting at offset 7, an undef operand
contributes the integer constant 0, while a non-undef (asserted
constant-integer) operand contributes its sign-extended literal and ORs
`ConstOffset` into the image-operand mask. -/
def gatherOffsets (inst : CallInst) (num_coords : Nat) (image_ops : Nat) : List Id × Nat :=
  (List.range num_coords).foldl
    (fun acc i =>
      if (inst.getOperand (i + 7)).isUndef then
        (acc.1 ++ [Id.intConst 0], acc.2)
      else
        (acc.1 ++ [Id.intConst (toInt32 (inst.getOperand (i + 7)).sextValue)],
         acc.2 ||| ImageOperandsConstOffsetMask))
    ([], image_ops)

/-- `Converter::Impl::emit_sample_instruction`
(`src/dxil_converter.cpp:885-1047`), in source order: build the combined
sampled image, derive the coordinate count from the image
dimensionality (unknown dimensionality returns early), gather
coordinates and offsets, gather the dref (SampleCmp only) and the aux
argument (LOD/bias/min-LOD/constant 0.0), pick the opcode, allocate the
result id (a detached scalar id for comparison sampling), compute the
result type (element 0 of the result struct, vectorised to 4 components
for non-comparison sampling), assemble the argument list, append the
sample operation, and for comparison sampling append a splat
`OpCompositeConstruct` carrying the instruction's value id. -/
def emit_sample_instruction (opcode : DXILOp) (block : List Operation) (st : ConvState)
    (inst : CallInst) : List Operation × ConvState :=
  let comparison_sampling := opcode = DXILOp.SampleCmp ∨ opcode = DXILOp.SampleCmpLevelZero
  let image_id := (alookup (inst.getOperand 1) st.handleToPtrId).getD .none
  let sampler_id := (alookup (inst.getOperand 2) st.handleToPtrId).getD .none
  let r1 := build_sampled_image st block image_id sampler_id (decide comparison_sampling)
  let combined_image_sampler_id := r1.1
  let block := r1.2.1
  let st := r1.2.2
  let image_type_id := get_type_id_of_id st image_id
  let dim := getTypeDimensionality image_type_id
  let arrayed := isArrayedImageType image_type_id
  match numCoordsForDim dim with
  | Option.none => (block, st)
  | some num_coords =>
    let num_coords_full := if arrayed then num_coords + 1 else num_coords
    let rc := gatherCoords st inst num_coords_full
    let coord := rc.1
    let st := rc.2
    let image_ops : Nat :=
      if opcode = DXILOp.SampleLevel ∨ opcode = DXILOp.SampleCmpLevelZero then
        ImageOperandsLodMask
      else if opcode = DXILOp.SampleBias then ImageOperandsBiasMask
      else 0
    let ro := gatherOffsets inst num_coords image_ops
    let offsets := ro.1
    let image_ops := ro.2
    let rd :=
      if opcode = DXILOp.SampleCmp then get_id_for_value st (inst.getOperand 10) 0
      else (Id.none, st)
    let dref_id := rd.1
    let st := rd.2
    let aux_argument_index := if opcode = DXILOp.SampleCmp then 11 else 10
    let ra :=
      if opcode = DXILOp.Sample ∨ opcode = DXILOp.SampleCmp then
        if ¬(inst.getOperand aux_argument_index).isUndef then
          let r := get_id_for_value st (inst.getOperand aux_argument_index) 0
          (r.1, image_ops ||| ImageOperandsMinLodMask, addCapability r.2 Cap.MinLod)
        else (Id.none, image_ops, st)
      else if opcode ≠ DXILOp.SampleCmpLevelZero then
        let r := get_id_for_value st (inst.getOperand aux_argument_index) 0
        (r.1, image_ops, r.2)
      else (Id.floatConst 0, image_ops, st)
    let aux_argument := ra.1
    let image_ops := ra.2.1
    let st := ra.2.2
    let spv_op :=
      match opcode with
      | DXILOp.SampleLevel => Opcode.OpImageSampleExplicitLod
      | DXILOp.Sample => Opcode.OpImageSampleImplicitLod
      | DXILOp.SampleBias => Opcode.OpImageSampleImplicitLod
      | DXILOp.SampleCmp => Opcode.OpImageSampleDrefImplicitLod
      | DXILOp.SampleCmpLevelZero => Opcode.OpImageSampleDrefExplicitLod
      | _ => Opcode.OpNop
    let ri :=
      if comparison_sampling then
        let r := allocId st
        (r.1, r.1, r.2)
      else
        let r := get_id_for_value st inst.selfValue 0
        (r.1, Id.none, r.2)
    let op_id := ri.1
    let sampled_value_id := ri.2.1
    let st := ri.2.2
    let type_id0 := get_type_id_ty inst.retType.structElem0
    let type_id := if comparison_sampling then type_id0 else Id.vecType type_id0 4
    let args1 : List Arg := [Arg.id combined_image_sampler_id]
    let rv := build_vector st block (Id.floatType 32) coord
    let coord_vec_id := rv.1
    let block := rv.2.1
    let st := rv.2.2
    let args2 := args1 ++ [Arg.id coord_vec_id]
    let args3 := if dref_id ≠ Id.none then args2 ++ [Arg.id dref_id] else args2
    let args4 := args3 ++ [Arg.lit image_ops]
    let args5 :=
      if image_ops &&& (ImageOperandsBiasMask ||| ImageOperandsLodMask) ≠ 0 then
        args4 ++ [Arg.id aux_argument]
      else args4
    let rw :=
      if image_ops &&& ImageOperandsConstOffsetMask ≠ 0 then
        let r := build_vector st block (Id.intType 32 true) offsets
        (args5 ++ [Arg.id r.1], r.2.1, r.2.2)
      else (args5, block, st)
    let args6 := rw.1
    let block := rw.2.1
    let st := rw.2.2
    let args7 :=
      if image_ops &&& ImageOperandsMinLodMask ≠ 0 then args6 ++ [Arg.id aux_argument]
      else args6
    let block := block ++ [⟨spv_op, op_id, type_id, args7⟩]
    if comparison_sampling then
      let rf := get_id_for_value st inst.selfValue 0
      (block ++ [⟨Opcode.OpCompositeConstruct, rf.1, Id.vecType (Id.floatType 32) 4,
                  [Arg.id sampled_value_id, Arg.id sampled_value_id,
                   Arg.id sampled_value_id, Arg.id sampled_value_id]⟩],
       rf.2)
    else (block, st)

/-! ## CFG discovery -/

/-- The CFG-discovery bookkeeping of `convert_entry_point`: the
block-to-node map, the node pool's counter, node names, the
`add_branch` edge set and the visitation order.  `add_branch` itself
lives in `node.hpp`/`node.cpp` (outside the converter source); per the
spec a `CFGNode`'s `successors` is a set of nodes, so edges are recorded
here as pairs and the successor set is edge membership. -/
structure DiscState where
  bbMap : List (Nat × Nat)
  nodeCount : Nat
  nodeNames : List (Nat × String)
  edges : List (Nat × Nat)
  visitOrder : List Nat
  deriving DecidableEq, Repr

/-- The entry-block setup of `convert_entry_point`
(`src/dxil_converter.cpp:1564-1576`): the entry block gets node 0, named
after the block with `.entry` appended, and seeds the work list. -/
def discInit (blockName : Nat → String) (entry : Nat) : DiscState :=
  { bbMap := [(entry, 0)], nodeCount := 1,
    nodeNames := [(0, blockName entry ++ ".entry")],
    edges := [], visitOrder := [] }

/-- The successor-handling body at `src/dxil_converter.cpp:1585-1599`:
an unvisited successor is added to the work list and given a fresh node
named after its block; in every case the edge from the current block's
node to the successor's node is recorded. -/
def processSucc (blockName : Nat → String) (block : Nat) (succ : Nat)
    (acc : DiscState × List Nat) : DiscState × List Nat :=
  let st := acc.1
  let to_process := acc.2
  let r :=
    if (alookup succ st.bbMap).isSome then (st, to_process)
    else
      ({ st with bbMap := (succ, st.nodeCount) :: st.bbMap,
                 nodeCount := st.nodeCount + 1,
                 nodeNames := (st.nodeCount, blockName succ) :: st.nodeNames },
       to_process ++ [succ])
  let st := r.1
  ({ st with
     edges := st.edges ++ [((alookup block st.bbMap).getD 0, (alookup succ st.bbMap).getD 0)] },
   r.2)

/-- Processing one block of the current batch
(`src/dxil_converter.cpp:1582-1600`): record the visit, then handle each
HLIR successor. -/
def processBlock (succs : Nat → List Nat) (blockName : Nat → String)
    (acc : DiscState × List Nat) (block : Nat) : DiscState × List Nat :=
  let acc := ({ acc.1 with visitOrder := acc.1.visitOrder ++ [block] }, acc.2)
  (succs block).foldl (fun a s => processSucc blockName block s a) acc

/-- One `processing` batch of the traversal loop. -/
def processBatch (succs : Nat → List Nat) (blockName : Nat → String)
    (processing : List Nat) (acc : DiscState × List Nat) : DiscState × List Nat :=
  processing.foldl (processBlock succs blockName) acc

/-- The `while (!to_process.empty())` loop at
`src/dxil_converter.cpp:1579-1603`, fuelled: each round swaps the work
list into `processing` and processes it, collecting newly discovered
blocks.  Returns the state together with the remaining work list (empty
when the traversal ran to completion within the fuel). -/
def bfsLoop (succs : Nat → List Nat) (blockName : Nat → String) :
    Nat → List Nat → DiscState → DiscState × List Nat
  | 0, to_process, st => (st, to_process)
  | fuel + 1, to_process, st =>
    if to_process.isEmpty then (st, [])
    else
      let r := processBatch succs blockName to_process (st, [])
      bfsLoop succs blockName fuel r.2 r.1

/-- CFG discovery for an entry block: the setup followed by the
traversal loop. -/
def cfg_discover (succs : Nat → List Nat) (blockName : Nat → String) (entry : Nat)
    (fuel : Nat) : DiscState × List Nat :=
  bfsLoop succs blockName fuel [entry] (discInit blockName entry)

/-- Reachability in the HLIR CFG from the entry block. -/
inductive Reach (succs : Nat → List Nat) (entry : Nat) : Nat → Prop where
  | refl : Reach succs entry entry
  | step {b c : Nat} : Reach succs entry b → c ∈ succs b → Reach succs entry c

/-- The value of the stage-I/O free-`Location` counter in front of
element `i`: the total `rows` of the `User`-semantic elements before it
(used to state what the counter-threading folds compute). -/
def userLocBefore (elems : List SigElement) (i : Nat) : Nat :=
  (((elems.take i).filter fun e => e.systemValue == Semantic.User).map SigElement.rows).sum

/-- Fixture: the image handle value of a concrete sampling run (a
`CreateHandle` call result). -/
def fixtureImageHandle : Value := .instr 1000 (.structT 1 (.pointer (.integer 8)))

/-- Fixture: the sampler handle value of a concrete sampling run. -/
def fixtureSamplerHandle : Value := .instr 1001 (.structT 1 (.pointer (.integer 8)))

/-- Fixture: a converter state binding the image handle to id 90, whose
recorded pointee type is a non-arrayed non-depth 2D float image, and the
sampler handle to id 91. -/
def fixtureState : ConvState :=
  { ConvState.init with
    handleToPtrId := [(fixtureImageHandle, .fresh 90), (fixtureSamplerHandle, .fresh 91)],
    idToType := [(.fresh 90, .imgType (.floatType 32) .D2 false false false 1)] }

/-- Fixture: a sample-family call on the fixture handles with
float-constant 2D coordinates, the given offset operands 7 and 8, and
undef remaining operands. -/
def fixtureSampleInst (off7 off8 : Value) : CallInst :=
  ⟨2000,
   [.constant (.integer 32) 60 0, fixtureImageHandle, fixtureSamplerHandle,
    .constant .float 0 10, .constant .float 0 11, .undef .float, .undef .float,
    off7, off8, .undef (.integer 32), .undef .float, .undef .float],
   .structT 5 .float⟩

/-- Fixture: the diamond CFG 0 → (1, 2) → 3, for concrete discovery
runs. -/
def c3WitnessSuccs : Nat → List Nat :=
  fun n => if n = 0 then [1, 2] else if n = 1 then [3] else if n = 2 then [3] else []

/-- The batch-boundary invariant of CFG discovery.  `D` lists the
processed blocks (whose successor edges are fully recorded), `pending`
the discovered-but-unprocessed ones: the block map's keys are distinct
and all reachable, node ids are distinct and below the pool counter, the
entry block holds node 0 (named `<block>.entry`), every mapped block is
processed or pending, pending blocks are mapped, distinct and
unprocessed, processed blocks have all successors mapped and their edge
sets equal to the image of their successors, and every recorded edge
originates at a processed block's node. -/
structure DiscInv (succs : Nat → List Nat) (blockName : Nat → String) (entry : Nat)
    (st : DiscState) (D : List Nat) (pending : List Nat) : Prop where
  keys_nodup : (st.bbMap.map Prod.fst).Nodup
  nodes_lt : ∀ p ∈ st.bbMap, p.2 < st.nodeCount
  nodes_nodup : (st.bbMap.map Prod.snd).Nodup
  pos_count : 0 < st.nodeCount
  entry_node : alookup entry st.bbMap = some 0
  entry_name : alookup 0 st.nodeNames = some (blockName entry ++ ".entry")
  reach : ∀ p ∈ st.bbMap, Reach succs entry p.1
  cover : ∀ p ∈ st.bbMap, p.1 ∈ D ∨ p.1 ∈ pending
  pending_keys : ∀ b ∈ pending, (alookup b st.bbMap).isSome = true
  pending_nodup : pending.Nodup
  pending_notdone : ∀ b ∈ pending, b ∉ D
  done_keys : ∀ b ∈ D, (alookup b st.bbMap).isSome = true
  done_succs : ∀ b ∈ D, ∀ s ∈ succs b, (alookup s st.bbMap).isSome = true
  done_edges : ∀ b ∈ D, ∀ nb, alookup b st.bbMap = some nb →
    ∀ m, ((nb, m) ∈ st.edges ↔ ∃ s ∈ succs b, alookup s st.bbMap = some m)
  edges_src : ∀ e ∈ st.edges, ∃ bd, bd ∈ D ∧ alookup bd st.bbMap = some e.1

/-- The invariant holding while the successor list of the block `b`
(mapped to node `nb`) is being walked; `done` is the prefix of `succs b`
already handled, whose image is exactly the set of edges recorded so
far out of `nb`. -/
structure DiscInvFlight (succs : Nat → List Nat) (blockName : Nat → String) (entry : Nat)
    (st : DiscState) (D : List Nat) (pending : List Nat) (b nb : Nat)
    (done : List Nat) : Prop where
  keys_nodup : (st.bbMap.map Prod.fst).Nodup
  nodes_lt : ∀ p ∈ st.bbMap, p.2 < st.nodeCount
  nodes_nodup : (st.bbMap.map Prod.snd).Nodup
  pos_count : 0 < st.nodeCount
  entry_node : alookup entry st.bbMap = some 0
  entry_name : alookup 0 st.nodeNames = some (blockName entry ++ ".entry")
  reach : ∀ p ∈ st.bbMap, Reach succs entry p.1
  cover : ∀ p ∈ st.bbMap, p.1 = b ∨ p.1 ∈ D ∨ p.1 ∈ pending
  pending_keys : ∀ x ∈ pending, (alookup x st.bbMap).isSome = true
  pending_nodup : pending.Nodup
  pending_notdone : ∀ x ∈ pending, x ∉ D
  done_keys : ∀ x ∈ D, (alookup x st.bbMap).isSome = true
  done_succs : ∀ x ∈ D, ∀ s ∈ succs x, (alookup s st.bbMap).isSome = true
  done_edges : ∀ x ∈ D, ∀ nx, alookup x st.bbMap = some nx →
    ∀ m, ((nx, m) ∈ st.edges ↔ ∃ s ∈ succs x, alookup s st.bbMap = some m)
  b_node : alookup b st.bbMap = some nb
  b_notdone : b ∉ D
  b_notpend : b ∉ pending
  part_edges : ∀ m, ((nb, m) ∈ st.edges ↔ ∃ x ∈ done, alookup x st.bbMap = some m)
  part_some : ∀ x ∈ done, (alookup x st.bbMap).isSome = true
  edges_src : ∀ e ∈ st.edges, (∃ bd, bd ∈ D ∧ alookup bd st.bbMap = some e.1) ∨ e.1 = nb

/-! ## Theorems -/

theorem alookup_cons_self {α β : Type} [DecidableEq α] (k : α) (v : β) (l : List (α × β)) :
    alookup k ((k, v) :: l) = some v := by
  simp [alookup]

/-- The id a `get_id_for_value` call returns is the one the value maps to
in the resulting state. -/
theorem get_id_for_value_lookup_self (st : ConvState) (v : Value) (w : Nat) :
    alookup v (get_id_for_value st v w).2.valueMap = some (get_id_for_value st v w).1 := by
  unfold get_id_for_value
  cases h : alookup v st.valueMap with
  | none => simp [h, alookup_cons_self]
  | some i => simp [h]

/-- A cached value is returned as-is, with the state untouched. -/
theorem get_id_for_value_cached (st : ConvState) (v : Value) (w : Nat) (i : Id)
    (h : alookup v st.valueMap = some i) : get_id_for_value st v w = (i, st) := by
  unfold get_id_for_value
  rw [h]

/-- C2: the value table is idempotent — a repeated `get_id_for_value`
call on the same HLIR value returns the id of the first call (whatever
forced width either call passes), because the first call caches its
result unconditionally before returning. -/
theorem c2_value_table_idempotent (st : ConvState) (v : Value) (w w' : Nat) :
    (get_id_for_value (get_id_for_value st v w).2 v w').1 = (get_id_for_value st v w).1 := by
  rw [get_id_for_value_cached _ _ _ _ (get_id_for_value_lookup_self st v w)]

/-- C5: lowering an integer constant yields a 32-bit unsigned GIR
constant exactly when the effective width (the type's width, overridden
by a non-zero `forced_width`) is 32, and the zero sentinel for every
other integer width; constants of any type other than 32-bit float,
64-bit float or integer also yield the zero sentinel. -/
theorem c5_constant_lowering (ival : Int) (fbits forced_width : Nat) :
    (∀ w, get_id_for_constant (.integer w) ival fbits forced_width =
        if (if forced_width ≠ 0 then forced_width else w) = 32 then .uintConst (zextW w ival)
        else .none) ∧
    (∀ ty : LLVMType, ty ≠ .float → ty ≠ .double → (∀ w, ty ≠ .integer w) →
        get_id_for_constant ty ival fbits forced_width = .none) := by
  constructor
  · intro w
    simp [get_id_for_constant]
  · intro ty hf hd hi
    cases ty with
    | float => exact absurd rfl hf
    | double => exact absurd rfl hd
    | integer w => exact absurd rfl (hi w)
    | _ => simp [get_id_for_constant]

/-- Witness for C5 at width 16 (sentinel without forcing, constant with
a forced width of 32) and at a struct-typed constant (sentinel). -/
theorem c5_constant_lowering_witness :
    get_id_for_constant (.integer 16) 5 0 0 = .none ∧
    get_id_for_constant (.integer 16) 5 0 32 = .uintConst 5 ∧
    get_id_for_constant (.structT 5 .float) 5 0 0 = .none := by
  refine ⟨?_, ?_, ?_⟩
  · have h := (c5_constant_lowering 5 0 0).1 16
    simpa using h
  · have h := (c5_constant_lowering 5 0 32).1 16
    rw [h]
    decide
  · exact (c5_constant_lowering 5 0 0).2 (.structT 5 .float) (by simp) (by simp) (fun w => by simp)

/-- C10: the value cache stores whatever the first `get_id_for_value`
call returns — including the sentinel 0 produced for an integer constant
of unsupported width queried without a (or with the wrong) forced width —
and every later call returns that cached sentinel regardless of the
forced width passed, even a later-forced 32. -/
theorem c10_sentinel_cached_despite_forced_width (st : ConvState) (w : Nat) (ival : Int)
    (fbits w' : Nat)
    (hfresh : alookup (Value.constant (.integer w) ival fbits) st.valueMap = Option.none)
    (hw : w ≠ 32) :
    (get_id_for_value st (Value.constant (.integer w) ival fbits) 0).1 = .none ∧
    (get_id_for_value (get_id_for_value st (Value.constant (.integer w) ival fbits) 0).2
        (Value.constant (.integer w) ival fbits) w').1 = .none := by
  have h1 : (get_id_for_value st (Value.constant (.integer w) ival fbits) 0).1 = Id.none := by
    unfold get_id_for_value
    rw [hfresh]
    simp [get_id_for_constant, hw]
  refine ⟨h1, ?_⟩
  rw [get_id_for_value_cached _ _ w' _
    (get_id_for_value_lookup_self st (Value.constant (.integer w) ival fbits) 0)]
  exact h1

/-- Witness for C10: a 16-bit constant queried on the empty state first
without and then with a forced width of 32. -/
theorem c10_sentinel_cached_witness :
    (get_id_for_value ConvState.init (Value.constant (.integer 16) 7 0) 0).1 = .none ∧
    (get_id_for_value (get_id_for_value ConvState.init (Value.constant (.integer 16) 7 0) 0).2
        (Value.constant (.integer 16) 7 0) 32).1 = .none :=
  c10_sentinel_cached_despite_forced_width ConvState.init 16 7 0 32 (by decide) (by decide)

/-- C6 counterexample: a bitcast whose result type is an HLIR vector (a
kind `get_type_id` does not support) is appended with a fresh non-zero
result id but the zero result type id, so an operation with non-zero
`result_id` and zero `result_type_id` does reach a node's operations
list. -/
theorem c6_counterexample :
    (emit_cast_instruction [] ConvState.init
        ⟨0, CastOps.BitCast, Value.constant .float 0 0, .vector .float 2⟩).1 =
      [⟨Opcode.OpBitcast, Id.fresh 0, Id.none, [Arg.id (Id.floatConst 0)]⟩] ∧
    Id.fresh 0 ≠ Id.none := by
  decide

/-- C6 (amended): every operation the cast emitter appends whose result
id is non-zero also has a non-zero result type id, provided the
instruction's result type is one the type translator supports
(`get_type_id` of it is non-zero); for unsupported result types the
appended operation carries the zero sentinel as its type id. -/
theorem c6_cast_nonzero_id_has_nonzero_type (block : List Operation) (st : ConvState)
    (inst : CastInst) (hty : get_type_id_ty inst.retType ≠ Id.none) :
    ∀ op ∈ (emit_cast_instruction block st inst).1,
      op ∉ block → op.id ≠ Id.none → op.type_id ≠ Id.none := by
  intro op hmem hnew _
  cases hc : inst.castop <;> simp only [emit_cast_instruction, hc] at hmem
  case OtherCast => exact absurd hmem hnew
  all_goals
    rcases List.mem_append.1 hmem with h | h
    · exact absurd h hnew
    · rw [List.mem_singleton.1 h]
      exact hty

/-- Witness for C6 (amended): the operation a supported zero-extension
cast appends has a non-zero result type id. -/
theorem c6_cast_nonzero_id_has_nonzero_type_witness :
    (⟨Opcode.OpUConvert, Id.fresh 0, Id.intType 32 false, [Arg.id (Id.uintConst 1)]⟩ :
        Operation).type_id ≠ Id.none :=
  c6_cast_nonzero_id_has_nonzero_type [] ConvState.init
    ⟨0, CastOps.ZExt, Value.constant (.integer 32) 1 0, .integer 32⟩ (by decide)
    ⟨Opcode.OpUConvert, Id.fresh 0, Id.intType 32 false, [Arg.id (Id.uintConst 1)]⟩
    (by decide) (by decide) (by decide)

/-! ### Constant buffers (C7) -/

theorem ceilDiv_sixteen (S : Nat) : S ⌈/⌉ 16 = (S + 15) / 16 := by
  show (S + 16 - 1) / 16 = (S + 15) / 16
  have h : S + 16 - 1 = S + 15 := by omega
  rw [h]

theorem emit_cbvs_cons (st : ConvState) (c : CBVMeta) (cs : List CBVMeta) :
    emit_cbvs st (c :: cs) = emit_cbvs (emit_cbv st c) cs := rfl

theorem listResize_getD (l : List Id) (n i : Nat) :
    (listResize l n).getD i Id.none = l.getD i Id.none := by
  unfold listResize
  rcases lt_or_ge i l.length with h | h
  · rw [List.getD_eq_getElem?_getD, List.getElem?_append_left h, ← List.getD_eq_getElem?_getD]
  · rw [List.getD_eq_getElem?_getD, List.getD_eq_getElem?_getD, List.getElem?_append_right h,
        List.getElem?_eq_none h, List.getElem?_replicate]
    split <;> rfl

theorem listResize_set_getD (l : List Id) (m : Nat) (v : Id) :
    ((listResize l (max l.length (m + 1))).set m v).getD m Id.none = v := by
  have hlen : m < (listResize l (max l.length (m + 1))).length := by
    simp [listResize]
  rw [List.getD_eq_getElem?_getD, List.getElem?_set_eq_of_lt _ hlen]
  rfl

theorem emit_cbv_decorations_mono (st : ConvState) (m : CBVMeta) (d : Decoration)
    (h : d ∈ st.decorations) : d ∈ (emit_cbv st m).decorations := by
  simp [emit_cbv, addDecoration, addMemberDecoration, makeStructType, createVariable, allocId, h]

theorem emit_cbv_memberDecorations_mono (st : ConvState) (m : CBVMeta) (d : MemberDecoration)
    (h : d ∈ st.memberDecorations) : d ∈ (emit_cbv st m).memberDecorations := by
  simp [emit_cbv, addDecoration, addMemberDecoration, makeStructType, createVariable, allocId, h]

theorem emit_cbv_structTypes_mono (st : ConvState) (m : CBVMeta) (s : Id × List Id × String)
    (h : s ∈ st.structTypes) : s ∈ (emit_cbv st m).structTypes := by
  simp [emit_cbv, addDecoration, addMemberDecoration, makeStructType, createVariable, allocId, h]

theorem emit_cbv_vars_mono (st : ConvState) (m : CBVMeta) (v : Id × SCls × Id × String)
    (h : v ∈ st.vars) : v ∈ (emit_cbv st m).vars := by
  simp [emit_cbv, addDecoration, addMemberDecoration, makeStructType, createVariable, allocId, h]

theorem emit_cbv_slot_ne (st : ConvState) (m : CBVMeta) (i : Nat) (hne : i ≠ m.index) :
    (emit_cbv st m).cbvIndexToId.getD i Id.none = st.cbvIndexToId.getD i Id.none := by
  simp only [emit_cbv, addDecoration, addMemberDecoration, makeStructType, createVariable,
             allocId]
  rw [List.getD_eq_getElem?_getD, List.getElem?_set_ne (fun he => hne he.symm),
      ← List.getD_eq_getElem?_getD, listResize_getD]

theorem emit_cbvs_decorations_mono (cbvs : List CBVMeta) (st : ConvState) (d : Decoration)
    (h : d ∈ st.decorations) : d ∈ (emit_cbvs st cbvs).decorations := by
  induction cbvs generalizing st with
  | nil => exact h
  | cons c cs ih =>
    rw [emit_cbvs_cons]
    exact ih _ (emit_cbv_decorations_mono _ _ _ h)

theorem emit_cbvs_memberDecorations_mono (cbvs : List CBVMeta) (st : ConvState)
    (d : MemberDecoration) (h : d ∈ st.memberDecorations) :
    d ∈ (emit_cbvs st cbvs).memberDecorations := by
  induction cbvs generalizing st with
  | nil => exact h
  | cons c cs ih =>
    rw [emit_cbvs_cons]
    exact ih _ (emit_cbv_memberDecorations_mono _ _ _ h)

theorem emit_cbvs_structTypes_mono (cbvs : List CBVMeta) (st : ConvState)
    (s : Id × List Id × String) (h : s ∈ st.structTypes) :
    s ∈ (emit_cbvs st cbvs).structTypes := by
  induction cbvs generalizing st with
  | nil => exact h
  | cons c cs ih =>
    rw [emit_cbvs_cons]
    exact ih _ (emit_cbv_structTypes_mono _ _ _ h)

theorem emit_cbvs_vars_mono (cbvs : List CBVMeta) (st : ConvState) (v : Id × SCls × Id × String)
    (h : v ∈ st.vars) : v ∈ (emit_cbvs st cbvs).vars := by
  induction cbvs generalizing st with
  | nil => exact h
  | cons c cs ih =>
    rw [emit_cbvs_cons]
    exact ih _ (emit_cbv_vars_mono _ _ _ h)

theorem emit_cbvs_slot_not_mem (cbvs : List CBVMeta) (st : ConvState) (i : Nat)
    (h : i ∉ cbvs.map CBVMeta.index) :
    (emit_cbvs st cbvs).cbvIndexToId.getD i Id.none = st.cbvIndexToId.getD i Id.none := by
  induction cbvs generalizing st with
  | nil => rfl
  | cons c cs ih =>
    simp only [List.map_cons, List.mem_cons, not_or] at h
    rw [emit_cbvs_cons, ih _ h.2, emit_cbv_slot_ne _ _ _ h.1]

/-- C7: for a CBV metadata entry of `size` bytes, lowering creates an
array of `⌈size/16⌉` 4-component 32-bit-float vectors decorated
`ArrayStride 16`, wraps it as the sole member of a `Block`-decorated
struct whose member 0 is at `Offset 0`, creates a `Uniform`-storage
variable of the struct type, decorates the variable with
`DescriptorSet = bind_space` and `Binding = bind_register`, and stores
the variable id at slot `index` of the CBV index table. -/
theorem c7_cbv_lowering (st : ConvState) (cbvs : List CBVMeta) (cbv : CBVMeta)
    (hmem : cbv ∈ cbvs) (hnodup : (cbvs.map CBVMeta.index).Nodup) :
    (⟨Id.arrType (Id.vecType (Id.floatType 32) 4) (Id.uintConst (cbv.size ⌈/⌉ 16)) 16,
        Deco.ArrayStride, some 16⟩ : Decoration) ∈ (emit_cbvs st cbvs).decorations ∧
    ∃ type_id var_id,
      (type_id,
        [Id.arrType (Id.vecType (Id.floatType 32) 4) (Id.uintConst (cbv.size ⌈/⌉ 16)) 16],
        cbv.name) ∈ (emit_cbvs st cbvs).structTypes ∧
      (⟨type_id, 0, Deco.Offset, 0⟩ : MemberDecoration) ∈ (emit_cbvs st cbvs).memberDecorations ∧
      (⟨type_id, Deco.Block, Option.none⟩ : Decoration) ∈ (emit_cbvs st cbvs).decorations ∧
      (var_id, SCls.Uniform, type_id, cbv.name) ∈ (emit_cbvs st cbvs).vars ∧
      (⟨var_id, Deco.DescriptorSet, some cbv.bindSpace⟩ : Decoration)
          ∈ (emit_cbvs st cbvs).decorations ∧
      (⟨var_id, Deco.Binding, some cbv.bindRegister⟩ : Decoration)
          ∈ (emit_cbvs st cbvs).decorations ∧
      (emit_cbvs st cbvs).cbvIndexToId.getD cbv.index Id.none = var_id := by
  rw [ceilDiv_sixteen]
  induction cbvs generalizing st with
  | nil => cases hmem
  | cons c cs ih =>
    simp only [List.map_cons, List.nodup_cons] at hnodup
    rcases List.mem_cons.1 hmem with rfl | hmem2
    · -- this entry is the head of the list
      rw [emit_cbvs_cons]
      refine ⟨?_, Id.fresh st.nextFresh, Id.fresh (st.nextFresh + 1), ?_, ?_, ?_, ?_, ?_, ?_, ?_⟩
      · exact emit_cbvs_decorations_mono cs _ _ (by
          simp [emit_cbv, addDecoration, addMemberDecoration, makeStructType, createVariable,
                allocId])
      · exact emit_cbvs_structTypes_mono cs _ _ (by
          simp [emit_cbv, addDecoration, addMemberDecoration, makeStructType, createVariable,
                allocId])
      · exact emit_cbvs_memberDecorations_mono cs _ _ (by
          simp [emit_cbv, addDecoration, addMemberDecoration, makeStructType, createVariable,
                allocId])
      · exact emit_cbvs_decorations_mono cs _ _ (by
          simp [emit_cbv, addDecoration, addMemberDecoration, makeStructType, createVariable,
                allocId])
      · exact emit_cbvs_vars_mono cs _ _ (by
          simp [emit_cbv, addDecoration, addMemberDecoration, makeStructType, createVariable,
                allocId])
      · exact emit_cbvs_decorations_mono cs _ _ (by
          simp [emit_cbv, addDecoration, addMemberDecoration, makeStructType, createVariable,
                allocId])
      · exact emit_cbvs_decorations_mono cs _ _ (by
          simp [emit_cbv, addDecoration, addMemberDecoration, makeStructType, createVariable,
                allocId])
      · rw [emit_cbvs_slot_not_mem cs _ _ hnodup.1]
        simp only [emit_cbv, addDecoration, addMemberDecoration, makeStructType, createVariable,
                   allocId]
        exact listResize_set_getD _ _ _
    · -- this entry lies in the tail
      rw [emit_cbvs_cons]
      exact ih (emit_cbv st c) hmem2 hnodup.2

/-- Witness for C7: a single 64-byte CBV at space 1, register 2,
index 0. -/
theorem c7_cbv_lowering_witness :
    (⟨Id.arrType (Id.vecType (Id.floatType 32) 4) (Id.uintConst ((64 : Nat) ⌈/⌉ 16)) 16,
        Deco.ArrayStride, some 16⟩ : Decoration)
      ∈ (emit_cbvs ConvState.init [⟨0, "cb", 1, 2, 64⟩]).decorations ∧
    ∃ type_id var_id,
      (type_id,
        [Id.arrType (Id.vecType (Id.floatType 32) 4) (Id.uintConst ((64 : Nat) ⌈/⌉ 16)) 16],
        "cb") ∈ (emit_cbvs ConvState.init [⟨0, "cb", 1, 2, 64⟩]).structTypes ∧
      (⟨type_id, 0, Deco.Offset, 0⟩ : MemberDecoration)
          ∈ (emit_cbvs ConvState.init [⟨0, "cb", 1, 2, 64⟩]).memberDecorations ∧
      (⟨type_id, Deco.Block, Option.none⟩ : Decoration)
          ∈ (emit_cbvs ConvState.init [⟨0, "cb", 1, 2, 64⟩]).decorations ∧
      (var_id, SCls.Uniform, type_id, "cb")
          ∈ (emit_cbvs ConvState.init [⟨0, "cb", 1, 2, 64⟩]).vars ∧
      (⟨var_id, Deco.DescriptorSet, some 1⟩ : Decoration)
          ∈ (emit_cbvs ConvState.init [⟨0, "cb", 1, 2, 64⟩]).decorations ∧
      (⟨var_id, Deco.Binding, some 2⟩ : Decoration)
          ∈ (emit_cbvs ConvState.init [⟨0, "cb", 1, 2, 64⟩]).decorations ∧
      (emit_cbvs ConvState.init [⟨0, "cb", 1, 2, 64⟩]).cbvIndexToId.getD 0 Id.none = var_id :=
  c7_cbv_lowering ConvState.init [⟨0, "cb", 1, 2, 64⟩] ⟨0, "cb", 1, 2, 64⟩
    (List.mem_singleton.2 rfl) (by simp)

/-! ### Stage-I/O locations (C8) -/

theorem userLocBefore_zero (elems : List SigElement) : userLocBefore elems 0 = 0 := by
  simp [userLocBefore]

theorem userLocBefore_cons (e : SigElement) (es : List SigElement) (j : Nat) :
    userLocBefore (e :: es) (j + 1) =
      (if e.systemValue = Semantic.User then e.rows else 0) + userLocBefore es j := by
  simp only [userLocBefore, List.take_succ_cons, List.filter_cons]
  split_ifs with h1 h2 h2 <;>
    simp_all [List.map_cons, List.sum_cons]

theorem emit_stage_output_element_nextFresh (acc : ConvState × Nat) (e : SigElement) :
    (emit_stage_output_element acc e).1.nextFresh = acc.1.nextFresh + 1 := by
  cases h : e.systemValue <;>
    simp [emit_stage_output_element, createVariable, allocId, addDecoration,
          emit_builtin_decoration, h]

theorem emit_stage_output_element_snd (acc : ConvState × Nat) (e : SigElement) :
    (emit_stage_output_element acc e).2 =
      if e.systemValue = Semantic.User then acc.2 + e.rows else acc.2 := by
  cases h : e.systemValue <;>
    simp [emit_stage_output_element, createVariable, allocId, addDecoration,
          emit_builtin_decoration, h]

theorem emit_stage_output_element_decorations_mono (acc : ConvState × Nat) (e : SigElement)
    (d : Decoration) (h : d ∈ acc.1.decorations) :
    d ∈ (emit_stage_output_element acc e).1.decorations := by
  cases hs : e.systemValue <;>
    simp [emit_stage_output_element, createVariable, allocId, addDecoration,
          emit_builtin_decoration, hs, h]

theorem out_fold_decorations_mono (elems : List SigElement) (acc : ConvState × Nat)
    (d : Decoration) (h : d ∈ acc.1.decorations) :
    d ∈ ((elems.foldl emit_stage_output_element acc).1).decorations := by
  induction elems generalizing acc with
  | nil => exact h
  | cons e es ih =>
    rw [List.foldl_cons]
    exact ih _ (emit_stage_output_element_decorations_mono _ _ _ h)

theorem out_fold_user_loc (elems : List SigElement) (st : ConvState) (loc : Nat) (i : Nat)
    (hi : i < elems.length) (huser : (elems.get ⟨i, hi⟩).systemValue = Semantic.User) :
    (⟨Id.fresh (st.nextFresh + i), Deco.Location, some (loc + userLocBefore elems i)⟩ :
        Decoration)
      ∈ ((elems.foldl emit_stage_output_element (st, loc)).1).decorations := by
  induction elems generalizing st loc i with
  | nil => exact absurd hi (Nat.not_lt_zero i)
  | cons e es ih =>
    rw [List.foldl_cons]
    cases i with
    | zero =>
      have huser' : e.systemValue = Semantic.User := huser
      rw [userLocBefore_zero]
      refine out_fold_decorations_mono es _ _ ?_
      simp [emit_stage_output_element, createVariable, allocId, addDecoration,
            emit_builtin_decoration, huser']
    | succ j =>
      have hj : j < es.length := Nat.lt_of_succ_lt_succ hi
      have huser' : (es.get ⟨j, hj⟩).systemValue = Semantic.User := huser
      have h1 := ih ((emit_stage_output_element (st, loc) e).1)
        ((emit_stage_output_element (st, loc) e).2) j hj huser'
      rw [Prod.mk.eta] at h1
      rw [emit_stage_output_element_nextFresh, emit_stage_output_element_snd] at h1
      rw [userLocBefore_cons]
      have harith : st.nextFresh + 1 + j = st.nextFresh + (j + 1) := by omega
      rw [harith] at h1
      split_ifs at h1 with h2
      · have : loc + e.rows + userLocBefore es j =
            loc + ((if e.systemValue = Semantic.User then e.rows else 0) + userLocBefore es j) := by
          rw [if_pos h2]; omega
        rw [this] at h1
        exact h1
      · have : loc + userLocBefore es j =
            loc + ((if e.systemValue = Semantic.User then e.rows else 0) + userLocBefore es j) := by
          rw [if_neg h2]; omega
        rw [this] at h1
        exact h1

theorem emit_stage_input_element_nextFresh (acc : ConvState × Nat) (e : SigElement) :
    (emit_stage_input_element acc e).1.nextFresh = acc.1.nextFresh + 1 := by
  cases h : e.systemValue <;>
    simp [emit_stage_input_element, createVariable, allocId, addDecoration,
          emit_builtin_decoration, h]

theorem emit_stage_input_element_snd (acc : ConvState × Nat) (e : SigElement) :
    (emit_stage_input_element acc e).2 =
      if e.systemValue = Semantic.User then acc.2 + e.rows else acc.2 := by
  cases h : e.systemValue <;>
    simp [emit_stage_input_element, createVariable, allocId, addDecoration,
          emit_builtin_decoration, h]

theorem emit_stage_input_element_decorations_mono (acc : ConvState × Nat) (e : SigElement)
    (d : Decoration) (h : d ∈ acc.1.decorations) :
    d ∈ (emit_stage_input_element acc e).1.decorations := by
  cases hs : e.systemValue <;>
    simp [emit_stage_input_element, createVariable, allocId, addDecoration,
          emit_builtin_decoration, hs, h]

theorem in_fold_decorations_mono (elems : List SigElement) (acc : ConvState × Nat)
    (d : Decoration) (h : d ∈ acc.1.decorations) :
    d ∈ ((elems.foldl emit_stage_input_element acc).1).decorations := by
  induction elems generalizing acc with
  | nil => exact h
  | cons e es ih =>
    rw [List.foldl_cons]
    exact ih _ (emit_stage_input_element_decorations_mono _ _ _ h)

theorem in_fold_user_loc (elems : List SigElement) (st : ConvState) (loc : Nat) (i : Nat)
    (hi : i < elems.length) (huser : (elems.get ⟨i, hi⟩).systemValue = Semantic.User) :
    (⟨Id.fresh (st.nextFresh + i), Deco.Location, some (loc + userLocBefore elems i)⟩ :
        Decoration)
      ∈ ((elems.foldl emit_stage_input_element (st, loc)).1).decorations := by
  induction elems generalizing st loc i with
  | nil => exact absurd hi (Nat.not_lt_zero i)
  | cons e es ih =>
    rw [List.foldl_cons]
    cases i with
    | zero =>
      have huser' : e.systemValue = Semantic.User := huser
      rw [userLocBefore_zero]
      refine in_fold_decorations_mono es _ _ ?_
      simp [emit_stage_input_element, createVariable, allocId, addDecoration,
            emit_builtin_decoration, huser']
    | succ j =>
      have hj : j < es.length := Nat.lt_of_succ_lt_succ hi
      have huser' : (es.get ⟨j, hj⟩).systemValue = Semantic.User := huser
      have h1 := ih ((emit_stage_input_element (st, loc) e).1)
        ((emit_stage_input_element (st, loc) e).2) j hj huser'
      rw [Prod.mk.eta] at h1
      rw [emit_stage_input_element_nextFresh, emit_stage_input_element_snd] at h1
      rw [userLocBefore_cons]
      have harith : st.nextFresh + 1 + j = st.nextFresh + (j + 1) := by omega
      rw [harith] at h1
      split_ifs at h1 with h2
      · have : loc + e.rows + userLocBefore es j =
            loc + ((if e.systemValue = Semantic.User then e.rows else 0) + userLocBefore es j) := by
          rw [if_pos h2]; omega
        rw [this] at h1
        exact h1
      · have : loc + userLocBefore es j =
            loc + ((if e.systemValue = Semantic.User then e.rows else 0) + userLocBefore es j) := by
          rw [if_neg h2]; omega
        rw [this] at h1
        exact h1

/-- C8: on both the input and the output path, a `User`-semantic
signature element is decorated with `Location` equal to the current
value of a per-path counter that starts at 0 and advances by `rows` on
every `User` element — so element `i`'s location is the total `rows` of
the `User` elements before it, with the identical advancement rule on
both paths (each element creates exactly one variable, so element `i`'s
variable is the `i`-th id allocated by the loop). -/
theorem c8_user_semantic_location (st : ConvState) (elems : List SigElement) (i : Nat)
    (hi : i < elems.length) (huser : (elems.get ⟨i, hi⟩).systemValue = Semantic.User) :
    (⟨Id.fresh (st.nextFresh + i), Deco.Location, some (userLocBefore elems i)⟩ : Decoration)
      ∈ (emit_stage_output_variables st elems).decorations ∧
    (⟨Id.fresh (st.nextFresh + i), Deco.Location, some (userLocBefore elems i)⟩ : Decoration)
      ∈ (emit_stage_input_variables st elems).decorations := by
  constructor
  · have h := out_fold_user_loc elems st 0 i hi huser
    simpa [emit_stage_output_variables] using h
  · have h := in_fold_user_loc elems st 0 i hi huser
    simpa [emit_stage_input_variables] using h

/-- Witness for C8: two `User` elements with `rows = 1` and `rows = 2`;
the second lands at location 1 on both paths. -/
theorem c8_user_semantic_location_witness :
    (⟨Id.fresh 1, Deco.Location,
        some (userLocBefore [⟨0, "A", .F32, .User, 1, 4, 0⟩, ⟨1, "B", .F32, .User, 2, 4, 0⟩] 1)⟩ :
        Decoration)
      ∈ (emit_stage_output_variables ConvState.init
          [⟨0, "A", .F32, .User, 1, 4, 0⟩, ⟨1, "B", .F32, .User, 2, 4, 0⟩]).decorations ∧
    (⟨Id.fresh 1, Deco.Location,
        some (userLocBefore [⟨0, "A", .F32, .User, 1, 4, 0⟩, ⟨1, "B", .F32, .User, 2, 4, 0⟩] 1)⟩ :
        Decoration)
      ∈ (emit_stage_input_variables ConvState.init
          [⟨0, "A", .F32, .User, 1, 4, 0⟩, ⟨1, "B", .F32, .User, 2, 4, 0⟩]).decorations :=
  c8_user_semantic_location ConvState.init
    [⟨0, "A", .F32, .User, 1, 4, 0⟩, ⟨1, "B", .F32, .User, 2, 4, 0⟩] 1 (by decide) (by decide)

/-! ### Sampling (C1, C4, C9) -/

theorem build_sampled_image_idToType (st : ConvState) (b : List Operation) (i s : Id)
    (c : Bool) : (build_sampled_image st b i s c).2.2.idToType = st.idToType := by
  simp [build_sampled_image, allocId]

theorem build_vector_valueMap (st : ConvState) (b : List Operation) (t : Id) (es : List Id) :
    (build_vector st b t es).2.2.valueMap = st.valueMap := by
  unfold build_vector
  split <;> simp [allocId]

/-- The offset loop in closed form: each undef operand contributes the
integer constant 0, each non-undef operand its (32-bit truncated)
sign-extended literal, and the mask gains `ConstOffset` exactly when
some operand is non-undef. -/
theorem gatherOffsets_fold (inst : CallInst) (l : List Nat) (acc : List Id × Nat) :
    (l.foldl (fun acc i =>
        if (inst.getOperand (i + 7)).isUndef then (acc.1 ++ [Id.intConst 0], acc.2)
        else (acc.1 ++ [Id.intConst (toInt32 (inst.getOperand (i + 7)).sextValue)],
              acc.2 ||| ImageOperandsConstOffsetMask)) acc) =
      (acc.1 ++ l.map (fun i =>
          if (inst.getOperand (i + 7)).isUndef then Id.intConst 0
          else Id.intConst (toInt32 (inst.getOperand (i + 7)).sextValue)),
       if (l.any fun i => !(inst.getOperand (i + 7)).isUndef) then
         acc.2 ||| ImageOperandsConstOffsetMask
       else acc.2) := by
  induction l generalizing acc with
  | nil => simp
  | cons x t ih =>
    rw [List.foldl_cons]
    split
    next hx =>
      rw [ih]
      simp [hx]
    next hx =>
      rw [ih]
      have h8 : ∀ a : Nat, a ||| ImageOperandsConstOffsetMask ||| ImageOperandsConstOffsetMask
          = a ||| ImageOperandsConstOffsetMask := fun a => by
        rw [Nat.or_assoc, Nat.or_self]
      simp [hx, h8]

theorem gatherOffsets_eq (inst : CallInst) (nc m : Nat) :
    gatherOffsets inst nc m =
      ((List.range nc).map (fun i =>
          if (inst.getOperand (i + 7)).isUndef then Id.intConst 0
          else Id.intConst (toInt32 (inst.getOperand (i + 7)).sextValue)),
       if ((List.range nc).any fun i => !(inst.getOperand (i + 7)).isUndef) then
         m ||| ImageOperandsConstOffsetMask
       else m) := by
  unfold gatherOffsets
  rw [gatherOffsets_fold]
  simp

/-- C9: a `SampleCmpLevelZero` lowering appends a dref-explicit-LOD
sample operation whose argument list has no dref id at all: the
arguments are exactly the sampled image, the coordinate, the
image-operands mask `Lod`, and the float constant 0.0 as the LOD (here
under all-undef offset operands, which add nothing), followed by the
scalar splat. -/
theorem c9_samplecmplevelzero_no_dref (st : ConvState) (block : List Operation)
    (inst : CallInst) (image_id fmt : Id) (dim : Dim) (dep arr ms : Bool) (sf nc : Nat)
    (h1 : alookup (inst.getOperand 1) st.handleToPtrId = some image_id)
    (h2 : alookup image_id st.idToType = some (.imgType fmt dim dep arr ms sf))
    (h3 : numCoordsForDim dim = some nc)
    (h4 : inst.retType.structElem0 = .float)
    (hoff : ∀ i ∈ List.range nc, (inst.getOperand (i + 7)).isUndef = true) :
    ∃ sop splat cid,
      (emit_sample_instruction DXILOp.SampleCmpLevelZero block st inst).1.dropLast.getLast? =
          some sop ∧
      (emit_sample_instruction DXILOp.SampleCmpLevelZero block st inst).1.getLast? =
          some splat ∧
      sop.op = Opcode.OpImageSampleDrefExplicitLod ∧
      sop.type_id = Id.floatType 32 ∧
      sop.arguments = [Arg.id (Id.fresh st.nextFresh), Arg.id cid,
                       Arg.lit ImageOperandsLodMask, Arg.id (Id.floatConst 0)] ∧
      splat.op = Opcode.OpCompositeConstruct ∧
      splat.arguments = [Arg.id sop.id, Arg.id sop.id, Arg.id sop.id, Arg.id sop.id] := by
  have hmask : ((List.range nc).any fun i => !(inst.getOperand (i + 7)).isUndef) = false := by
    rw [List.any_eq_false]
    intro i hi
    simp [hoff i hi]
  simp only [emit_sample_instruction, build_sampled_image, get_type_id_of_id, allocId,
             gatherOffsets_eq, hmask, h1, h2, h3, h4, Option.getD_some, getTypeDimensionality,
             isArrayedImageType, isMultisampledImageType, getImageComponentType,
             get_type_id_ty, ImageOperandsLodMask, ImageOperandsBiasMask,
             ImageOperandsConstOffsetMask, ImageOperandsMinLodMask]
  simp only [reduceCtorEq, or_self, or_false, false_or, if_false, if_true, ite_false, ite_true,
             not_true, not_false_iff, ne_eq, List.dropLast_concat, List.getLast?_concat]
  exact ⟨_, _, _, rfl, rfl, rfl, rfl, rfl, rfl, rfl⟩

/-- Witness for C9: the 2D fixture with both offset operands undef. -/
theorem c9_samplecmplevelzero_no_dref_witness :
    ∃ sop splat cid,
      (emit_sample_instruction DXILOp.SampleCmpLevelZero [] fixtureState
          (fixtureSampleInst (.undef (.integer 32)) (.undef (.integer 32)))).1.dropLast.getLast? =
          some sop ∧
      (emit_sample_instruction DXILOp.SampleCmpLevelZero [] fixtureState
          (fixtureSampleInst (.undef (.integer 32)) (.undef (.integer 32)))).1.getLast? =
          some splat ∧
      sop.op = Opcode.OpImageSampleDrefExplicitLod ∧
      sop.type_id = Id.floatType 32 ∧
      sop.arguments = [Arg.id (Id.fresh fixtureState.nextFresh), Arg.id cid,
                       Arg.lit ImageOperandsLodMask, Arg.id (Id.floatConst 0)] ∧
      splat.op = Opcode.OpCompositeConstruct ∧
      splat.arguments = [Arg.id sop.id, Arg.id sop.id, Arg.id sop.id, Arg.id sop.id] :=
  c9_samplecmplevelzero_no_dref fixtureState []
    (fixtureSampleInst (.undef (.integer 32)) (.undef (.integer 32)))
    (.fresh 90) (.floatType 32) .D2 false false false 1 2
    (by decide) (by decide) (by decide) (by decide) (by decide)

theorem fst_ite {α β : Type} (c : Prop) [Decidable c] (a b : α × β) :
    (if c then a else b).1 = if c then a.1 else b.1 := by
  split <;> rfl

theorem snd_ite {α β : Type} (c : Prop) [Decidable c] (a b : α × β) :
    (if c then a else b).2 = if c then a.2 else b.2 := by
  split <;> rfl

theorem valueMap_ite (c : Prop) [Decidable c] (a b : ConvState) :
    (if c then a else b).valueMap = if c then a.valueMap else b.valueMap := by
  split <;> rfl

/-- C4: comparison sampling (SampleCmp, SampleCmpLevelZero) emits a raw
sample operation of scalar-float result type followed by an
`OpCompositeConstruct` of 4-component float vector type whose four
arguments are all the scalar result id, and the id finally assigned to
the HLIR instruction is the splat's id; non-comparison sampling emits a
sample operation of 4-component float vector type as the last operation
(no splat), whose id the instruction is assigned. -/
theorem c4_comparison_sampling_splat (opcode : DXILOp) (st : ConvState)
    (block : List Operation) (inst : CallInst) (image_id fmt : Id) (dim : Dim)
    (dep arr ms : Bool) (sf nc : Nat)
    (h1 : alookup (inst.getOperand 1) st.handleToPtrId = some image_id)
    (h2 : alookup image_id st.idToType = some (.imgType fmt dim dep arr ms sf))
    (h3 : numCoordsForDim dim = some nc)
    (h4 : inst.retType.structElem0 = .float) :
    ((opcode = DXILOp.SampleCmp ∨ opcode = DXILOp.SampleCmpLevelZero) →
      ∃ sop splat,
        (emit_sample_instruction opcode block st inst).1.dropLast.getLast? = some sop ∧
        (emit_sample_instruction opcode block st inst).1.getLast? = some splat ∧
        sop.type_id = Id.floatType 32 ∧
        splat.op = Opcode.OpCompositeConstruct ∧
        splat.type_id = Id.vecType (Id.floatType 32) 4 ∧
        splat.arguments = [Arg.id sop.id, Arg.id sop.id, Arg.id sop.id, Arg.id sop.id] ∧
        alookup inst.selfValue (emit_sample_instruction opcode block st inst).2.valueMap =
          some splat.id) ∧
    ((opcode = DXILOp.Sample ∨ opcode = DXILOp.SampleBias ∨ opcode = DXILOp.SampleLevel) →
      ∃ sop,
        (emit_sample_instruction opcode block st inst).1.getLast? = some sop ∧
        sop.type_id = Id.vecType (Id.floatType 32) 4 ∧
        (sop.op = Opcode.OpImageSampleImplicitLod ∨
          sop.op = Opcode.OpImageSampleExplicitLod) ∧
        alookup inst.selfValue (emit_sample_instruction opcode block st inst).2.valueMap =
          some sop.id) := by
  constructor
  · rintro (rfl | rfl) <;>
    · simp only [emit_sample_instruction, build_sampled_image, get_type_id_of_id, allocId,
                 h1, h2, h3, h4, Option.getD_some, getTypeDimensionality, isArrayedImageType,
                 isMultisampledImageType, getImageComponentType, get_type_id_ty]
      simp only [reduceCtorEq, or_self, or_false, false_or, or_true, if_false, if_true,
                 ite_false, ite_true, not_true, not_false_iff, ne_eq,
                 List.dropLast_concat, List.getLast?_concat]
      exact ⟨_, _, rfl, rfl, rfl, rfl, rfl, rfl, get_id_for_value_lookup_self _ _ _⟩
  · rintro (rfl | rfl | rfl) <;>
    · simp only [emit_sample_instruction, build_sampled_image, get_type_id_of_id, allocId,
                 h1, h2, h3, h4, Option.getD_some, getTypeDimensionality, isArrayedImageType,
                 isMultisampledImageType, getImageComponentType, get_type_id_ty]
      simp only [reduceCtorEq, or_self, or_false, false_or, or_true, if_false, if_true,
                 ite_false, ite_true, not_true, not_false_iff, ne_eq,
                 List.dropLast_concat, List.getLast?_concat]
      refine ⟨_, rfl, rfl, by simp, ?_⟩
      simp only [valueMap_ite, snd_ite, fst_ite, build_vector_valueMap, ite_self]
      exact get_id_for_value_lookup_self _ _ _

/-- Witness for C4 at `SampleCmp` on the 2D fixture. -/
theorem c4_comparison_sampling_splat_witness :
    ∃ sop splat,
      (emit_sample_instruction DXILOp.SampleCmp [] fixtureState
          (fixtureSampleInst (.undef (.integer 32)) (.undef (.integer 32)))).1.dropLast.getLast? =
          some sop ∧
      (emit_sample_instruction DXILOp.SampleCmp [] fixtureState
          (fixtureSampleInst (.undef (.integer 32)) (.undef (.integer 32)))).1.getLast? =
          some splat ∧
      sop.type_id = Id.floatType 32 ∧
      splat.op = Opcode.OpCompositeConstruct ∧
      splat.type_id = Id.vecType (Id.floatType 32) 4 ∧
      splat.arguments = [Arg.id sop.id, Arg.id sop.id, Arg.id sop.id, Arg.id sop.id] ∧
      alookup (fixtureSampleInst (.undef (.integer 32)) (.undef (.integer 32))).selfValue
          (emit_sample_instruction DXILOp.SampleCmp [] fixtureState
            (fixtureSampleInst (.undef (.integer 32)) (.undef (.integer 32)))).2.valueMap =
        some splat.id :=
  (c4_comparison_sampling_splat DXILOp.SampleCmp fixtureState []
      (fixtureSampleInst (.undef (.integer 32)) (.undef (.integer 32)))
      (.fresh 90) (.floatType 32) .D2 false false false 1 2
      (by decide) (by decide) (by decide) (by decide)).1 (Or.inl rfl)

/-- C1 counterexample: with both offset operands equal to the integer
constant 0 (present as constants, not undef), the emitted
`OpImageSampleImplicitLod` operation carries the image-operands mask
literal 8 = `ConstOffset`: the mask contains `ConstOffset` even though
every offset operand is an undef or a zero constant, refuting the
claim's "no ConstOffset when every offset is undef or a zero
constant". -/
theorem c1_counterexample :
    ((emit_sample_instruction DXILOp.Sample [] fixtureState
        (fixtureSampleInst (.constant (.integer 32) 0 0) (.constant (.integer 32) 0 0))).1.getLast?
      = some ⟨Opcode.OpImageSampleImplicitLod, Id.fresh 1, Id.vecType (Id.floatType 32) 4,
              [Arg.id (Id.fresh 0), Arg.id (Id.fresh 2), Arg.lit 8, Arg.id (Id.fresh 3)]⟩) ∧
    ImageOperandsConstOffsetMask = 8 ∧ 8 &&& ImageOperandsConstOffsetMask ≠ 0 := by
  exact ⟨rfl, rfl, by decide⟩

/-- C1 (amended): for each of the `num_coords` offset operands, an undef
operand contributes the integer constant 0 and a constant-integer
operand its (32-bit truncated) literal value, and the `ConstOffset`
image-operand bit of the emitted mask is set exactly when some offset
operand is non-undef (present as a constant), regardless of the
constant's value; in particular, when every offset operand is undef the
emitted mask does not contain `ConstOffset`. -/
theorem c1_const_offset_mask (opcode : DXILOp) (st : ConvState) (block : List Operation)
    (inst : CallInst) (image_id fmt : Id) (dim : Dim) (dep arr ms : Bool) (sf nc : Nat)
    (h1 : alookup (inst.getOperand 1) st.handleToPtrId = some image_id)
    (h2 : alookup image_id st.idToType = some (.imgType fmt dim dep arr ms sf))
    (h3 : numCoordsForDim dim = some nc)
    (hop : opcode = DXILOp.Sample ∨ opcode = DXILOp.SampleBias ∨ opcode = DXILOp.SampleLevel) :
    (∀ m : Nat, gatherOffsets inst nc m =
      ((List.range nc).map (fun i =>
          if (inst.getOperand (i + 7)).isUndef then Id.intConst 0
          else Id.intConst (toInt32 (inst.getOperand (i + 7)).sextValue)),
       if ((List.range nc).any fun i => !(inst.getOperand (i + 7)).isUndef) then
         m ||| ImageOperandsConstOffsetMask
       else m)) ∧
    ∃ sop M,
      (emit_sample_instruction opcode block st inst).1.getLast? = some sop ∧
      sop.arguments.getD 2 (Arg.lit 0) = Arg.lit M ∧
      ((M &&& ImageOperandsConstOffsetMask ≠ 0) ↔
        ((List.range nc).any fun i => !(inst.getOperand (i + 7)).isUndef) = true) := by
  refine ⟨fun m => gatherOffsets_eq inst nc m, ?_⟩
  rcases hop with rfl | rfl | rfl <;>
    cases haux : (inst.getOperand 10).isUndef <;>
      cases hrange : (List.range nc).any (fun i => !(inst.getOperand (i + 7)).isUndef) <;>
        (simp only [emit_sample_instruction, build_sampled_image, get_type_id_of_id, allocId,
                    gatherOffsets_eq, h1, h2, h3, hrange, haux, Option.getD_some,
                    getTypeDimensionality, isArrayedImageType, isMultisampledImageType,
                    getImageComponentType, ImageOperandsLodMask, ImageOperandsBiasMask,
                    ImageOperandsConstOffsetMask, ImageOperandsMinLodMask,
                    reduceCtorEq, Bool.not_true, Bool.not_false, or_self, or_false, false_or,
                    or_true, if_false, if_true, ite_false, ite_true, not_true, not_false_iff,
                    not_true_eq_false, not_false_eq_true, ne_eq, List.getLast?_concat]
         exact ⟨_, _, rfl, rfl, by decide⟩)

/-- Witness for C1 (amended): the 2D fixture sampling with one present
(non-zero) and one undef offset operand. -/
theorem c1_const_offset_mask_witness :
    (∀ m : Nat, gatherOffsets (fixtureSampleInst (.constant (.integer 32) 1 0)
        (.undef (.integer 32))) 2 m =
      ((List.range 2).map (fun i =>
          if ((fixtureSampleInst (.constant (.integer 32) 1 0)
                (.undef (.integer 32))).getOperand (i + 7)).isUndef then Id.intConst 0
          else Id.intConst (toInt32 ((fixtureSampleInst (.constant (.integer 32) 1 0)
                (.undef (.integer 32))).getOperand (i + 7)).sextValue)),
       if ((List.range 2).any fun i => !((fixtureSampleInst (.constant (.integer 32) 1 0)
              (.undef (.integer 32))).getOperand (i + 7)).isUndef) then
         m ||| ImageOperandsConstOffsetMask
       else m)) ∧
    ∃ sop M,
      (emit_sample_instruction DXILOp.Sample [] fixtureState
          (fixtureSampleInst (.constant (.integer 32) 1 0) (.undef (.integer 32)))).1.getLast? =
        some sop ∧
      sop.arguments.getD 2 (Arg.lit 0) = Arg.lit M ∧
      ((M &&& ImageOperandsConstOffsetMask ≠ 0) ↔
        ((List.range 2).any fun i => !((fixtureSampleInst (.constant (.integer 32) 1 0)
            (.undef (.integer 32))).getOperand (i + 7)).isUndef) = true) :=
  c1_const_offset_mask DXILOp.Sample fixtureState []
    (fixtureSampleInst (.constant (.integer 32) 1 0) (.undef (.integer 32)))
    (.fresh 90) (.floatType 32) .D2 false false false 1 2
    (by decide) (by decide) (by decide) (Or.inl rfl)

/-! ### CFG discovery (C3) -/

theorem alookup_cons_ne {α β : Type} [DecidableEq α] {a k : α} (v : β) (l : List (α × β))
    (h : a ≠ k) : alookup k ((a, v) :: l) = alookup k l := by
  simp [alookup, h]

theorem alookup_isSome_iff_mem {α β : Type} [DecidableEq α] (k : α) (l : List (α × β)) :
    (alookup k l).isSome = true ↔ k ∈ l.map Prod.fst := by
  induction l with
  | nil => simp [alookup]
  | cons p t ih =>
    obtain ⟨a, b⟩ := p
    by_cases h : a = k
    · subst h
      simp [alookup]
    · rw [alookup_cons_ne _ _ h, List.map_cons]
      constructor
      · intro hs
        exact List.mem_cons_of_mem _ (ih.1 hs)
      · intro hk
        rcases List.mem_cons.1 hk with heq | hk2
        · exact absurd heq.symm h
        · exact ih.2 hk2

theorem alookup_mem {α β : Type} [DecidableEq α] {k : α} {v : β} {l : List (α × β)}
    (h : alookup k l = some v) : (k, v) ∈ l := by
  induction l with
  | nil => cases h
  | cons p t ih =>
    obtain ⟨a, b⟩ := p
    by_cases ha : a = k
    · subst ha
      simp only [alookup_cons_self, Option.some.injEq] at h
      subst h
      exact List.mem_cons_self _ _
    · rw [alookup_cons_ne _ _ ha] at h
      exact List.mem_cons_of_mem _ (ih h)

theorem alookup_cons_fresh {α β : Type} [DecidableEq α] {s : α} (v : β) {l : List (α × β)}
    (hs : alookup s l = Option.none) {k : α} (hk : (alookup k l).isSome = true) :
    alookup k ((s, v) :: l) = alookup k l := by
  refine alookup_cons_ne _ _ ?_
  intro h
  subst h
  rw [hs] at hk
  cases hk

theorem alookup_node_ne {l : List (Nat × Nat)} (hn : (l.map Prod.snd).Nodup)
    {d b nd nb : Nat} (hd : alookup d l = some nd) (hb : alookup b l = some nb)
    (hne : d ≠ b) : nd ≠ nb := by
  intro he
  have hpq : ((d, nd) : Nat × Nat) = (b, nb) :=
    List.inj_on_of_nodup_map hn (alookup_mem hd) (alookup_mem hb) he
  rw [Prod.mk.injEq] at hpq
  exact hne hpq.1

/-- One `processSucc` call preserves the in-flight invariant, extending
the handled prefix by the successor just walked. -/
theorem processSucc_flight (succs : Nat → List Nat) (blockName : Nat → String)
    (entry : Nat) (st : DiscState) (D P tp : List Nat) (b nb s : Nat) (done : List Nat)
    (hf : DiscInvFlight succs blockName entry st D (P ++ tp) b nb done)
    (hs : s ∈ succs b) (hreach : Reach succs entry b) :
    ∃ st' Δ, processSucc blockName b s (st, tp) = (st', tp ++ Δ) ∧
      DiscInvFlight succs blockName entry st' D (P ++ (tp ++ Δ)) b nb (done ++ [s]) := by
  by_cases hlook : (alookup s st.bbMap).isSome = true
  · -- the successor is already mapped: only the edge is appended
    obtain ⟨ns, hns⟩ := Option.isSome_iff_exists.1 hlook
    have hstep : processSucc blockName b s (st, tp) =
        ({ st with edges := st.edges ++ [(nb, ns)] }, tp) := by
      simp [processSucc, hlook, hf.b_node, hns]
    refine ⟨_, [], by simpa using hstep, ?_⟩
    rw [List.append_nil]
    refine ⟨hf.keys_nodup, hf.nodes_lt, hf.nodes_nodup, hf.pos_count, hf.entry_node,
            hf.entry_name, hf.reach, hf.cover, hf.pending_keys, hf.pending_nodup,
            hf.pending_notdone, hf.done_keys, hf.done_succs, ?_, hf.b_node, hf.b_notdone,
            hf.b_notpend, ?_, ?_, ?_⟩
    · -- done_edges
      intro x hx nx hnx m
      have hxb : x ≠ b := fun h => hf.b_notdone (h ▸ hx)
      have hnxb : nx ≠ nb := alookup_node_ne hf.nodes_nodup hnx hf.b_node hxb
      constructor
      · intro hm
        rcases List.mem_append.1 hm with hm | hm
        · exact (hf.done_edges x hx nx hnx m).1 hm
        · have h12 := List.mem_singleton.1 hm
          rw [Prod.mk.injEq] at h12
          exact absurd h12.1 hnxb
      · intro hm
        exact List.mem_append_left _ ((hf.done_edges x hx nx hnx m).2 hm)
    · -- part_edges over done ++ [s]
      intro m
      constructor
      · intro hm
        rcases List.mem_append.1 hm with hm | hm
        · obtain ⟨x, hx1, hx2⟩ := (hf.part_edges m).1 hm
          exact ⟨x, List.mem_append_left _ hx1, hx2⟩
        · have h12 := List.mem_singleton.1 hm
          rw [Prod.mk.injEq] at h12
          refine ⟨s, List.mem_append_right _ (List.mem_singleton.2 rfl), ?_⟩
          rw [h12.2]
          exact hns
      · rintro ⟨x, hx1, hx2⟩
        rcases List.mem_append.1 hx1 with hx1 | hx1
        · exact List.mem_append_left _ ((hf.part_edges m).2 ⟨x, hx1, hx2⟩)
        · rcases List.mem_singleton.1 hx1 with rfl
          rw [hns] at hx2
          injection hx2 with h
          subst h
          exact List.mem_append_right _ (List.mem_singleton.2 rfl)
    · -- part_some
      intro x hx
      rcases List.mem_append.1 hx with hx | hx
      · exact hf.part_some x hx
      · rcases List.mem_singleton.1 hx with rfl
        exact hlook
    · -- edges_src
      intro e he
      rcases List.mem_append.1 he with he | he
      · exact hf.edges_src e he
      · rcases List.mem_singleton.1 he with rfl
        exact Or.inr rfl
  · -- fresh successor: a node is allocated, the block queued, the edge appended
    have hnone : alookup s st.bbMap = Option.none := by
      cases h : alookup s st.bbMap
      · rfl
      · rw [h] at hlook
        simp at hlook
    have hbs : b ≠ s := by
      intro h
      subst h
      rw [hf.b_node] at hnone
      cases hnone
    have hlookb : alookup b ((s, st.nodeCount) :: st.bbMap) = some nb := by
      rw [alookup_cons_ne _ _ (Ne.symm hbs), hf.b_node]
    have hstep : processSucc blockName b s (st, tp) =
        ({ st with bbMap := (s, st.nodeCount) :: st.bbMap,
                   nodeCount := st.nodeCount + 1,
                   nodeNames := (st.nodeCount, blockName s) :: st.nodeNames,
                   edges := st.edges ++ [(nb, st.nodeCount)] }, tp ++ [s]) := by
      simp [processSucc, hlook, alookup_cons_self, hlookb]
    have hsmem : s ∉ st.bbMap.map Prod.fst := by
      intro h
      rw [← alookup_isSome_iff_mem] at h
      rw [hnone] at h
      cases h
    have hstable : ∀ k : Nat, (alookup k st.bbMap).isSome = true →
        alookup k ((s, st.nodeCount) :: st.bbMap) = alookup k st.bbMap :=
      fun k hk => alookup_cons_fresh _ hnone hk
    refine ⟨_, [s], hstep, ?_⟩
    refine ⟨?_, ?_, ?_, Nat.lt_succ_of_lt hf.pos_count, ?_, ?_, ?_, ?_, ?_, ?_, ?_, ?_, ?_,
            ?_, ?_, hf.b_notdone, ?_, ?_, ?_, ?_⟩
    · -- keys_nodup
      exact List.Nodup.cons hsmem hf.keys_nodup
    · -- nodes_lt
      intro p hp
      rcases List.mem_cons.1 hp with rfl | hp
      · exact Nat.lt_succ_self _
      · exact Nat.lt_succ_of_lt (hf.nodes_lt p hp)
    · -- nodes_nodup
      refine List.Nodup.cons ?_ hf.nodes_nodup
      intro hmem
      obtain ⟨p, hp, hp2⟩ := List.mem_map.1 hmem
      have := hf.nodes_lt p hp
      omega
    · -- entry_node
      rw [hstable entry (by rw [hf.entry_node]; rfl), hf.entry_node]
    · -- entry_name
      have h0 : st.nodeCount ≠ 0 := Nat.pos_iff_ne_zero.1 hf.pos_count
      rw [alookup_cons_ne _ _ h0, hf.entry_name]
    · -- reach
      intro p hp
      rcases List.mem_cons.1 hp with rfl | hp
      · exact Reach.step hreach hs
      · exact hf.reach p hp
    · -- cover
      intro p hp
      rcases List.mem_cons.1 hp with rfl | hp
      · exact Or.inr (Or.inr (List.mem_append_right _ (List.mem_append_right _
          (List.mem_singleton.2 rfl))))
      · rcases hf.cover p hp with h | h | h
        · exact Or.inl h
        · exact Or.inr (Or.inl h)
        · rcases List.mem_append.1 h with h | h
          · exact Or.inr (Or.inr (List.mem_append_left _ h))
          · exact Or.inr (Or.inr (List.mem_append_right _ (List.mem_append_left _ h)))
    · -- pending_keys
      intro x hx
      have hx' : x ∈ P ++ tp ∨ x = s := by
        rcases List.mem_append.1 hx with h | h
        · exact Or.inl (List.mem_append_left _ h)
        · rcases List.mem_append.1 h with h | h
          · exact Or.inl (List.mem_append_right _ h)
          · exact Or.inr (List.mem_singleton.1 h)
      rcases hx' with h | rfl
      · rw [hstable x (hf.pending_keys x h)]
        exact hf.pending_keys x h
      · rw [alookup_cons_self]
        rfl
    · -- pending_nodup
      have hsp : s ∉ P ++ tp := by
        intro h
        have := hf.pending_keys s h
        rw [hnone] at this
        cases this
      have : (P ++ (tp ++ [s])) = (P ++ tp) ++ [s] := by
        rw [List.append_assoc]
      rw [this]
      refine List.Nodup.append hf.pending_nodup (List.nodup_singleton s) ?_
      intro a ha hb
      rcases List.mem_singleton.1 hb with rfl
      exact hsp ha
    · -- pending_notdone
      intro x hx
      have hx' : x ∈ P ++ tp ∨ x = s := by
        rcases List.mem_append.1 hx with h | h
        · exact Or.inl (List.mem_append_left _ h)
        · rcases List.mem_append.1 h with h | h
          · exact Or.inl (List.mem_append_right _ h)
          · exact Or.inr (List.mem_singleton.1 h)
      rcases hx' with h | heq
      · exact hf.pending_notdone x h
      · intro hsD
        have hk := hf.done_keys x hsD
        rw [heq, hnone] at hk
        cases hk
    · -- done_keys
      intro x hx
      rw [hstable x (hf.done_keys x hx)]
      exact hf.done_keys x hx
    · -- done_succs
      intro x hx t ht
      rw [hstable t (hf.done_succs x hx t ht)]
      exact hf.done_succs x hx t ht
    · -- done_edges
      intro x hx nx hnx m
      have hnx0 : alookup x st.bbMap = some nx := by
        rw [← hstable x (hf.done_keys x hx)]
        exact hnx
      have hxb : x ≠ b := fun h => hf.b_notdone (h ▸ hx)
      have hnxb : nx ≠ nb := alookup_node_ne hf.nodes_nodup hnx0 hf.b_node hxb
      constructor
      · intro hm
        rcases List.mem_append.1 hm with hm | hm
        · obtain ⟨t, ht1, ht2⟩ := (hf.done_edges x hx nx hnx0 m).1 hm
          refine ⟨t, ht1, ?_⟩
          rw [hstable t (by rw [ht2]; rfl)]
          exact ht2
        · have h12 := List.mem_singleton.1 hm
          rw [Prod.mk.injEq] at h12
          exact absurd h12.1 hnxb
      · rintro ⟨t, ht1, ht2⟩
        have hts : t ≠ s := by
          intro h
          have hk := hf.done_succs x hx t ht1
          rw [h, hnone] at hk
          cases hk
        rw [alookup_cons_ne _ _ (Ne.symm hts)] at ht2
        exact List.mem_append_left _ ((hf.done_edges x hx nx hnx0 m).2 ⟨t, ht1, ht2⟩)
    · -- b_node
      rw [hstable b (by rw [hf.b_node]; rfl)]
      exact hf.b_node
    · -- b_notpend
      intro hb
      rcases List.mem_append.1 hb with h | h
      · exact hf.b_notpend (List.mem_append_left _ h)
      · rcases List.mem_append.1 h with h | h
        · exact hf.b_notpend (List.mem_append_right _ h)
        · exact hbs (List.mem_singleton.1 h)
    · -- part_edges
      intro m
      constructor
      · intro hm
        rcases List.mem_append.1 hm with hm | hm
        · obtain ⟨x, hx1, hx2⟩ := (hf.part_edges m).1 hm
          refine ⟨x, List.mem_append_left _ hx1, ?_⟩
          rw [hstable x (by rw [hx2]; rfl)]
          exact hx2
        · have h12 := List.mem_singleton.1 hm
          rw [Prod.mk.injEq] at h12
          refine ⟨s, List.mem_append_right _ (List.mem_singleton.2 rfl), ?_⟩
          rw [h12.2, alookup_cons_self]
      · rintro ⟨x, hx1, hx2⟩
        rcases List.mem_append.1 hx1 with hx1 | hx1
        · have hxs : x ≠ s := by
            intro h
            have hk := hf.part_some x hx1
            rw [h, hnone] at hk
            cases hk
          rw [alookup_cons_ne _ _ (Ne.symm hxs)] at hx2
          exact List.mem_append_left _ ((hf.part_edges m).2 ⟨x, hx1, hx2⟩)
        · rcases List.mem_singleton.1 hx1 with rfl
          rw [alookup_cons_self] at hx2
          injection hx2 with h
          subst h
          exact List.mem_append_right _ (List.mem_singleton.2 rfl)
    · -- part_some
      intro x hx
      rcases List.mem_append.1 hx with hx | hx
      · rw [hstable x (hf.part_some x hx)]
        exact hf.part_some x hx
      · rcases List.mem_singleton.1 hx with rfl
        rw [alookup_cons_self]
        rfl
    · -- edges_src
      intro e he
      rcases List.mem_append.1 he with he | he
      · rcases hf.edges_src e he with ⟨bd, hbd1, hbd2⟩ | h
        · refine Or.inl ⟨bd, hbd1, ?_⟩
          rw [hstable bd (by rw [hbd2]; rfl)]
          exact hbd2
        · exact Or.inr h
      · rcases List.mem_singleton.1 he with rfl
        exact Or.inr rfl

/-- Walking a suffix of the successor list preserves the in-flight
invariant, extending the handled prefix by that suffix. -/
theorem processSucc_loop (succs : Nat → List Nat) (blockName : Nat → String)
    (entry : Nat) (st : DiscState) (D P tp : List Nat) (b nb : Nat) (done l : List Nat)
    (hf : DiscInvFlight succs blockName entry st D (P ++ tp) b nb done)
    (hl : ∀ s ∈ l, s ∈ succs b) (hreach : Reach succs entry b) :
    ∃ st' Δ, l.foldl (fun a s => processSucc blockName b s a) (st, tp) = (st', tp ++ Δ) ∧
      DiscInvFlight succs blockName entry st' D (P ++ (tp ++ Δ)) b nb (done ++ l) := by
  induction l generalizing st tp done with
  | nil =>
    refine ⟨st, [], by simp, ?_⟩
    simpa using hf
  | cons s t ih =>
    obtain ⟨st1, Δ1, hstep, hf1⟩ := processSucc_flight succs blockName entry st D P tp b nb s
      done hf (hl s (List.mem_cons_self _ _)) hreach
    obtain ⟨st2, Δ2, hloop, hf2⟩ := ih st1 (tp ++ Δ1) (done ++ [s]) hf1
      (fun x hx => hl x (List.mem_cons_of_mem _ hx))
    refine ⟨st2, Δ1 ++ Δ2, ?_, ?_⟩
    · rw [List.foldl_cons, hstep, hloop, List.append_assoc]
    · simp only [List.append_assoc, List.singleton_append] at hf2
      exact hf2

/-- Processing one pending block turns the batch invariant's pending
head into a processed block. -/
theorem processBlock_inv (succs : Nat → List Nat) (blockName : Nat → String)
    (entry : Nat) (st : DiscState) (D rest tp : List Nat) (b : Nat)
    (hinv : DiscInv succs blockName entry st D (b :: (rest ++ tp))) :
    ∃ st' Δ, processBlock succs blockName (st, tp) b = (st', tp ++ Δ) ∧
      DiscInv succs blockName entry st' (b :: D) (rest ++ (tp ++ Δ)) := by
  have hbsome := hinv.pending_keys b (List.mem_cons_self _ _)
  obtain ⟨nb, hnb⟩ := Option.isSome_iff_exists.1 hbsome
  have hbnotpend : b ∉ rest ++ tp := (List.nodup_cons.1 hinv.pending_nodup).1
  have hbnotdone : b ∉ D := hinv.pending_notdone b (List.mem_cons_self _ _)
  have hreachb : Reach succs entry b := hinv.reach (b, nb) (alookup_mem hnb)
  have hf0 : DiscInvFlight succs blockName entry
      { st with visitOrder := st.visitOrder ++ [b] } D (rest ++ tp) b nb [] := by
    refine ⟨hinv.keys_nodup, hinv.nodes_lt, hinv.nodes_nodup, hinv.pos_count,
            hinv.entry_node, hinv.entry_name, hinv.reach, ?_, ?_, ?_, ?_,
            hinv.done_keys, hinv.done_succs, hinv.done_edges, hnb, hbnotdone, hbnotpend,
            ?_, ?_, ?_⟩
    · intro p hp
      rcases hinv.cover p hp with h | h
      · exact Or.inr (Or.inl h)
      · rcases List.mem_cons.1 h with h | h
        · exact Or.inl h
        · exact Or.inr (Or.inr h)
    · exact fun x hx => hinv.pending_keys x (List.mem_cons_of_mem _ hx)
    · exact (List.nodup_cons.1 hinv.pending_nodup).2
    · exact fun x hx => hinv.pending_notdone x (List.mem_cons_of_mem _ hx)
    · intro m
      constructor
      · intro hm
        obtain ⟨bd, hbd, hlkp⟩ := hinv.edges_src (nb, m) hm
        have hbdb : bd ≠ b := fun h => hbnotdone (h ▸ hbd)
        exact absurd rfl (alookup_node_ne hinv.nodes_nodup hlkp hnb hbdb)
      · rintro ⟨x, hx, -⟩
        cases hx
    · intro x hx
      cases hx
    · exact fun e he => Or.inl (hinv.edges_src e he)
  obtain ⟨st', Δ, hfold, hf'⟩ := processSucc_loop succs blockName entry
    { st with visitOrder := st.visitOrder ++ [b] } D rest tp b nb [] (succs b) hf0
    (fun s hs0 => hs0) hreachb
  simp only [List.nil_append] at hf'
  refine ⟨st', Δ, hfold, ?_⟩
  refine ⟨hf'.keys_nodup, hf'.nodes_lt, hf'.nodes_nodup, hf'.pos_count, hf'.entry_node,
          hf'.entry_name, hf'.reach, ?_, hf'.pending_keys, hf'.pending_nodup, ?_, ?_, ?_,
          ?_, ?_⟩
  · intro p hp
    rcases hf'.cover p hp with h | h | h
    · exact Or.inl (h ▸ List.mem_cons_self _ _)
    · exact Or.inl (List.mem_cons_of_mem _ h)
    · exact Or.inr h
  · intro x hx
    intro hmem
    rcases List.mem_cons.1 hmem with rfl | hmem
    · exact hf'.b_notpend hx
    · exact hf'.pending_notdone x hx hmem
  · intro x hx
    rcases List.mem_cons.1 hx with rfl | hx
    · rw [hf'.b_node]
      rfl
    · exact hf'.done_keys x hx
  · intro x hx s hsx
    rcases List.mem_cons.1 hx with rfl | hx
    · exact hf'.part_some s hsx
    · exact hf'.done_succs x hx s hsx
  · intro x hx nx hnx m
    rcases List.mem_cons.1 hx with rfl | hx
    · rw [hf'.b_node] at hnx
      injection hnx with hnx
      subst hnx
      exact hf'.part_edges m
    · exact hf'.done_edges x hx nx hnx m
  · intro e he
    rcases hf'.edges_src e he with ⟨bd, hbd, hlkp⟩ | h
    · exact ⟨bd, List.mem_cons_of_mem _ hbd, hlkp⟩
    · refine ⟨b, List.mem_cons_self _ _, ?_⟩
      rw [h, hf'.b_node]

/-- Processing a whole batch preserves the batch invariant. -/
theorem processBatch_inv (succs : Nat → List Nat) (blockName : Nat → String) (entry : Nat)
    (processing : List Nat) (st : DiscState) (D tp : List Nat)
    (hinv : DiscInv succs blockName entry st D (processing ++ tp)) :
    ∃ st' Δ D', processBatch succs blockName processing (st, tp) = (st', tp ++ Δ) ∧
      DiscInv succs blockName entry st' D' (tp ++ Δ) := by
  induction processing generalizing st tp D with
  | nil =>
    refine ⟨st, [], D, by simp [processBatch], ?_⟩
    simpa using hinv
  | cons b rest ih =>
    have hinv' : DiscInv succs blockName entry st D (b :: (rest ++ tp)) := hinv
    obtain ⟨st1, Δ1, hb, hinv1⟩ := processBlock_inv succs blockName entry st D rest tp b hinv'
    obtain ⟨st2, Δ2, D', hrest, hinv2⟩ := ih st1 (b :: D) (tp ++ Δ1) hinv1
    refine ⟨st2, Δ1 ++ Δ2, D', ?_, ?_⟩
    · simp only [processBatch, List.foldl_cons] at hrest ⊢
      rw [hb, hrest, List.append_assoc]
    · rw [← List.append_assoc]
      exact hinv2

/-- A terminating run of the traversal loop ends with every discovered
block processed. -/
theorem bfsLoop_inv (succs : Nat → List Nat) (blockName : Nat → String) (entry : Nat)
    (fuel : Nat) (tp : List Nat) (st : DiscState) (D : List Nat)
    (hinv : DiscInv succs blockName entry st D tp)
    (hterm : (bfsLoop succs blockName fuel tp st).2 = []) :
    ∃ D', DiscInv succs blockName entry (bfsLoop succs blockName fuel tp st).1 D' [] := by
  induction fuel generalizing tp st D with
  | zero =>
    simp only [bfsLoop] at hterm ⊢
    rw [hterm] at hinv
    exact ⟨D, hinv⟩
  | succ fuel ih =>
    simp only [bfsLoop] at hterm ⊢
    by_cases hemp : tp.isEmpty
    · rw [if_pos hemp] at hterm ⊢
      rw [List.isEmpty_iff.1 hemp] at hinv
      exact ⟨D, hinv⟩
    · rw [if_neg hemp] at hterm ⊢
      obtain ⟨st1, Δ, D1, hbatch, hinv1⟩ := processBatch_inv succs blockName entry tp st D []
        (by simpa using hinv)
      rw [hbatch] at hterm ⊢
      simp only [List.nil_append] at hterm hinv1 ⊢
      exact ih Δ st1 D1 hinv1 hterm

/-- C3: after a terminating CFG discovery, the block map holds exactly
one node per block and covers exactly the blocks reachable from the
entry (distinct blocks having distinct nodes); every mapped block's
recorded edge set equals the image under the block map of its HLIR
successor set; the entry block holds node 0, whose name is the entry
block's name with `.entry` appended. -/
theorem c3_cfg_discovery (succs : Nat → List Nat) (blockName : Nat → String)
    (entry fuel : Nat)
    (hterm : (cfg_discover succs blockName entry fuel).2 = []) :
    (((cfg_discover succs blockName entry fuel).1.bbMap.map Prod.fst).Nodup ∧
     ((cfg_discover succs blockName entry fuel).1.bbMap.map Prod.snd).Nodup) ∧
    (∀ b, (alookup b (cfg_discover succs blockName entry fuel).1.bbMap).isSome = true ↔
        Reach succs entry b) ∧
    (∀ b nb, alookup b (cfg_discover succs blockName entry fuel).1.bbMap = some nb →
        ∀ m, ((nb, m) ∈ (cfg_discover succs blockName entry fuel).1.edges ↔
          ∃ s ∈ succs b,
            alookup s (cfg_discover succs blockName entry fuel).1.bbMap = some m)) ∧
    alookup entry (cfg_discover succs blockName entry fuel).1.bbMap = some 0 ∧
    alookup 0 (cfg_discover succs blockName entry fuel).1.nodeNames =
      some (blockName entry ++ ".entry") := by
  have hinit : DiscInv succs blockName entry (discInit blockName entry) [] [entry] := by
    refine ⟨?_, ?_, ?_, ?_, ?_, ?_, ?_, ?_, ?_, ?_, ?_, ?_, ?_, ?_, ?_⟩
    · simp [discInit]
    · intro p hp
      rcases List.mem_singleton.1 hp with rfl
      exact Nat.zero_lt_one
    · simp [discInit]
    · exact Nat.zero_lt_one
    · simp [discInit, alookup]
    · simp [discInit, alookup]
    · intro p hp
      rcases List.mem_singleton.1 hp with rfl
      exact Reach.refl
    · intro p hp
      rcases List.mem_singleton.1 hp with rfl
      exact Or.inr (List.mem_singleton.2 rfl)
    · intro x hx
      rcases List.mem_singleton.1 hx with rfl
      simp [discInit, alookup]
    · exact List.nodup_singleton entry
    · intro x hx
      exact List.not_mem_nil x
    · intro x hx
      cases hx
    · intro x hx
      cases hx
    · intro x hx
      cases hx
    · intro e he
      cases he
  obtain ⟨D', hfin0⟩ := bfsLoop_inv succs blockName entry fuel [entry]
    (discInit blockName entry) [] hinit hterm
  have hfin : DiscInv succs blockName entry (cfg_discover succs blockName entry fuel).1
      D' [] := hfin0
  have hmemD : ∀ b : Nat,
      (alookup b (cfg_discover succs blockName entry fuel).1.bbMap).isSome = true →
      b ∈ D' := by
    intro b hb
    rw [alookup_isSome_iff_mem] at hb
    obtain ⟨p, hp, hfst⟩ := List.mem_map.1 hb
    rcases hfin.cover p hp with h | h
    · exact hfst ▸ h
    · cases h
  refine ⟨⟨hfin.keys_nodup, hfin.nodes_nodup⟩, ?_, ?_, hfin.entry_node, hfin.entry_name⟩
  · intro b
    constructor
    · intro hb
      rw [alookup_isSome_iff_mem] at hb
      obtain ⟨p, hp, hfst⟩ := List.mem_map.1 hb
      exact hfst ▸ hfin.reach p hp
    · intro hr
      induction hr with
      | refl =>
        rw [hfin.entry_node]
        rfl
      | step hr' hmem ih =>
        exact hfin.done_succs _ (hmemD _ ih) _ hmem
  · intro b nb hnb m
    exact hfin.done_edges b (hmemD b (by rw [hnb]; rfl)) nb hnb m

/-- Witness for C3 on the diamond graph 0 → (1, 2) → 3. -/
theorem c3_cfg_discovery_witness :
    (((cfg_discover c3WitnessSuccs (fun _ => "bb") 0 8).1.bbMap.map Prod.fst).Nodup ∧
     ((cfg_discover c3WitnessSuccs (fun _ => "bb") 0 8).1.bbMap.map Prod.snd).Nodup) ∧
    (∀ b, (alookup b (cfg_discover c3WitnessSuccs (fun _ => "bb") 0 8).1.bbMap).isSome = true ↔
        Reach c3WitnessSuccs 0 b) ∧
    (∀ b nb, alookup b (cfg_discover c3WitnessSuccs (fun _ => "bb") 0 8).1.bbMap = some nb →
        ∀ m, ((nb, m) ∈ (cfg_discover c3WitnessSuccs (fun _ => "bb") 0 8).1.edges ↔
          ∃ s ∈ c3WitnessSuccs b,
            alookup s (cfg_discover c3WitnessSuccs (fun _ => "bb") 0 8).1.bbMap = some m)) ∧
    alookup 0 (cfg_discover c3WitnessSuccs (fun _ => "bb") 0 8).1.bbMap = some 0 ∧
    alookup 0 (cfg_discover c3WitnessSuccs (fun _ => "bb") 0 8).1.nodeNames =
      some ((fun _ : Nat => "bb") 0 ++ ".entry") :=
  c3_cfg_discovery c3WitnessSuccs (fun _ => "bb") 0 8 (by decide)

end DxilSpv
